import Mathlib

/-! Verification of the image rasterization core (`src/lv_draw/lv_draw_img.c`):
a shallow embedding of the pixel format codec, the image source classifier and
the compositor, with theorems checking the natural-language specification.

Machine integers are embedded as `Nat`/`Int`; byte buffers are total functions
from byte index to byte value. The color configuration is fixed to the
toolkit's 16-bit default (see the configuration constants below). -/

namespace LvImg

/-- Color format tags (`lv_img_cf_t`). -/
inductive lv_img_cf_t where
  | LV_IMG_CF_UNKNOWN
  | LV_IMG_CF_RAW
  | LV_IMG_CF_RAW_ALPHA
  | LV_IMG_CF_RAW_CHROMA_KEYED
  | LV_IMG_CF_TRUE_COLOR
  | LV_IMG_CF_TRUE_COLOR_ALPHA
  | LV_IMG_CF_TRUE_COLOR_CHROMA_KEYED
  | LV_IMG_CF_INDEXED_1BIT
  | LV_IMG_CF_INDEXED_2BIT
  | LV_IMG_CF_INDEXED_4BIT
  | LV_IMG_CF_INDEXED_8BIT
  | LV_IMG_CF_ALPHA_1BIT
  | LV_IMG_CF_ALPHA_2BIT
  | LV_IMG_CF_ALPHA_4BIT
  | LV_IMG_CF_ALPHA_8BIT
  deriving DecidableEq, Repr

/-- Fully transparent opacity (`LV_OPA_TRANSP`). -/
def LV_OPA_TRANSP : Nat := 0

/-- Fully opaque opacity (`LV_OPA_COVER`). -/
def LV_OPA_COVER : Nat := 255

/-- Modelled from the spec: the minimum-visible opacity threshold `LV_OPA_MIN`
is defined in the configuration header, which is not under src/; the value is
the toolkit default. -/
def LV_OPA_MIN : Nat := 16

/-- Modelled from the spec: the clamp-to-opaque threshold `LV_OPA_MAX` is
defined in the configuration header, which is not under src/; the value is the
toolkit default. -/
def LV_OPA_MAX : Nat := 251

/-- Modelled from the spec: the color configuration (`LV_COLOR_DEPTH`,
`LV_COLOR_SIZE`) lives in the configuration header, not under src/. The
embedding fixes the default 16-bit depth, so `sizeof(lv_color_t) = 2`. -/
def LV_COLOR_SIZE : Nat := 16

/-- Pixel size in bytes of a true-color pixel with a trailing alpha byte
(`LV_IMG_PX_SIZE_ALPHA_BYTE = LV_COLOR_SIZE/8 + 1` under the fixed config). -/
def LV_IMG_PX_SIZE_ALPHA_BYTE : Nat := 3

/-- Black (`LV_COLOR_BLACK`), as a raw 16-bit color value. -/
def LV_COLOR_BLACK : Nat := 0

/-- Modelled from the spec: the reserved chroma-key color `LV_COLOR_TRANSP` is
defined in the configuration header, not under src/; the value is the default
pure green in RGB565. -/
def LV_COLOR_TRANSP : Nat := 0x07E0

/-- Modelled from the spec: the maximum supported horizontal resolution
`LV_HOR_RES_MAX` (configuration header, not under src/) bounding the
compositor's scratch row buffers. The theorems below do not depend on its
value. -/
def LV_HOR_RES_MAX : Nat := 480

/-- Image header (`lv_img_header_t`): color format and dimensions in pixels. -/
structure lv_img_header_t where
  cf : lv_img_cf_t
  w : Nat
  h : Nat

/-- Image descriptor (`lv_img_dsc_t`): header plus the raw byte buffer `data`,
modelled as a total function from byte index to byte value. -/
structure lv_img_dsc_t where
  header : lv_img_header_t
  data : Nat → Nat

/-- The style fields consumed by this core (`lv_style_t`, `style->image.*`). -/
structure lv_style_t where
  image_color : Nat
  image_opa : Nat
  image_intense : Nat

/-- Write one byte of a buffer (`buf[i] = v`). -/
def updByte (f : Nat → Nat) (i v : Nat) : Nat → Nat :=
  fun n => if n = i then v else f n

/-- Pixel size of a color format in bits (`lv_img_color_format_get_px_size`). -/
def lv_img_color_format_get_px_size (cf : lv_img_cf_t) : Nat :=
  match cf with
  | .LV_IMG_CF_UNKNOWN | .LV_IMG_CF_RAW => 0
  | .LV_IMG_CF_TRUE_COLOR | .LV_IMG_CF_TRUE_COLOR_CHROMA_KEYED => LV_COLOR_SIZE
  | .LV_IMG_CF_TRUE_COLOR_ALPHA => LV_IMG_PX_SIZE_ALPHA_BYTE <<< 3
  | .LV_IMG_CF_INDEXED_1BIT | .LV_IMG_CF_ALPHA_1BIT => 1
  | .LV_IMG_CF_INDEXED_2BIT | .LV_IMG_CF_ALPHA_2BIT => 2
  | .LV_IMG_CF_INDEXED_4BIT | .LV_IMG_CF_ALPHA_4BIT => 4
  | .LV_IMG_CF_INDEXED_8BIT | .LV_IMG_CF_ALPHA_8BIT => 8
  | .LV_IMG_CF_RAW_ALPHA | .LV_IMG_CF_RAW_CHROMA_KEYED => 0

/-- Chroma-key capability lookup (`lv_img_color_format_is_chroma_keyed`). -/
def lv_img_color_format_is_chroma_keyed (cf : lv_img_cf_t) : Bool :=
  match cf with
  | .LV_IMG_CF_TRUE_COLOR_CHROMA_KEYED
  | .LV_IMG_CF_RAW_CHROMA_KEYED
  | .LV_IMG_CF_INDEXED_1BIT
  | .LV_IMG_CF_INDEXED_2BIT
  | .LV_IMG_CF_INDEXED_4BIT
  | .LV_IMG_CF_INDEXED_8BIT => true
  | _ => false

/-- Alpha capability lookup (`lv_img_color_format_has_alpha`). -/
def lv_img_color_format_has_alpha (cf : lv_img_cf_t) : Bool :=
  match cf with
  | .LV_IMG_CF_TRUE_COLOR_ALPHA
  | .LV_IMG_CF_RAW_ALPHA
  | .LV_IMG_CF_ALPHA_1BIT
  | .LV_IMG_CF_ALPHA_2BIT
  | .LV_IMG_CF_ALPHA_4BIT
  | .LV_IMG_CF_ALPHA_8BIT => true
  | _ => false

/-- Image source kinds (`lv_img_src_t`). -/
inductive lv_img_src_t where
  | LV_IMG_SRC_VARIABLE
  | LV_IMG_SRC_FILE
  | LV_IMG_SRC_SYMBOL
  | LV_IMG_SRC_UNKNOWN
  deriving DecidableEq, Repr

/-- Image source classifier (`lv_img_src_get_type`). The opaque handle is
modelled by its first byte — the only byte the function inspects — with `none`
standing for a NULL pointer. -/
def lv_img_src_get_type (src : Option Nat) : lv_img_src_t :=
  match src with
  | none => .LV_IMG_SRC_UNKNOWN
  | some b =>
    if 0x20 ≤ b ∧ b ≤ 0x7F then .LV_IMG_SRC_FILE
    else if 0x80 ≤ b then .LV_IMG_SRC_SYMBOL
    else .LV_IMG_SRC_VARIABLE

/-- Coordinate clamping shared by the two pixel getters:
`if (v >= n) v = n - 1; else if (v < 0) v = 0;`. -/
def clampCoord (n : Nat) (v : Int) : Int :=
  if v ≥ (n : Int) then (n : Int) - 1 else if v < 0 then 0 else v

/-- Format dispatch of `lv_img_buf_get_px_color`, after coordinate clamping.
Colors are the `full` field of `lv_color_t` (16 bits under the fixed config);
the two-byte `memcpy` is a little-endian read. -/
def getPxColorCore (dsc : lv_img_dsc_t) (x y : Nat) (style : Option lv_style_t) : Nat :=
  let w := dsc.header.w
  let buf := dsc.data
  match dsc.header.cf with
  | .LV_IMG_CF_TRUE_COLOR | .LV_IMG_CF_TRUE_COLOR_CHROMA_KEYED
  | .LV_IMG_CF_TRUE_COLOR_ALPHA =>
    let px_size := lv_img_color_format_get_px_size dsc.header.cf >>> 3
    let px := w * y * px_size + x * px_size
    buf px + (buf (px + 1)) <<< 8
  | .LV_IMG_CF_INDEXED_1BIT =>
    let bit := x &&& 0x7
    let x := x >>> 3
    let px := ((w + 7) >>> 3) * y + x
    (buf (4 * 2 + px) &&& (1 <<< (7 - bit))) >>> (7 - bit)
  | .LV_IMG_CF_INDEXED_2BIT =>
    let bit := (x &&& 0x3) * 2
    let x := x >>> 2
    let px := ((w + 3) >>> 2) * y + x
    (buf (4 * 4 + px) &&& (3 <<< (6 - bit))) >>> (6 - bit)
  | .LV_IMG_CF_INDEXED_4BIT =>
    let bit := (x &&& 0x1) * 4
    let x := x >>> 1
    let px := ((w + 1) >>> 1) * y + x
    (buf (4 * 16 + px) &&& (0xF <<< (4 - bit))) >>> (4 - bit)
  | .LV_IMG_CF_INDEXED_8BIT =>
    let px := w * y + x
    buf (4 * 256 + px)
  | .LV_IMG_CF_ALPHA_1BIT | .LV_IMG_CF_ALPHA_2BIT
  | .LV_IMG_CF_ALPHA_4BIT | .LV_IMG_CF_ALPHA_8BIT =>
    match style with
    | some s => s.image_color
    | none => LV_COLOR_BLACK
  | _ => LV_COLOR_BLACK

/-- Pixel color getter (`lv_img_buf_get_px_color`): clamp both coordinates,
then dispatch on the format. -/
def lv_img_buf_get_px_color (dsc : lv_img_dsc_t) (x y : Int)
    (style : Option lv_style_t) : Nat :=
  getPxColorCore dsc (clampCoord dsc.header.w x).toNat (clampCoord dsc.header.h y).toNat style

/-- Opacity lookup table for 2-bit alpha (`opa_table` in
`lv_img_buf_get_px_alpha`). -/
def opa_table_2bit : List Nat := [0, 85, 170, 255]

/-- Opacity lookup table for 4-bit alpha (`opa_table` in
`lv_img_buf_get_px_alpha`). -/
def opa_table_4bit : List Nat :=
  [0, 17, 34, 51, 68, 85, 102, 119, 136, 153, 170, 187, 204, 221, 238, 255]

/-- Format dispatch of `lv_img_buf_get_px_alpha`, after coordinate clamping. -/
def getPxAlphaCore (dsc : lv_img_dsc_t) (x y : Nat) : Nat :=
  let w := dsc.header.w
  let buf := dsc.data
  match dsc.header.cf with
  | .LV_IMG_CF_TRUE_COLOR_ALPHA =>
    let px := w * y * LV_IMG_PX_SIZE_ALPHA_BYTE + x * LV_IMG_PX_SIZE_ALPHA_BYTE
    buf (px + LV_IMG_PX_SIZE_ALPHA_BYTE - 1)
  | .LV_IMG_CF_ALPHA_1BIT =>
    let bit := x &&& 0x7
    let x := x >>> 3
    let px := ((w + 7) >>> 3) * y + x
    let px_opa := (buf px &&& (1 <<< (7 - bit))) >>> (7 - bit)
    if px_opa = 0 then LV_OPA_COVER else LV_OPA_TRANSP
  | .LV_IMG_CF_ALPHA_2BIT =>
    let bit := (x &&& 0x3) * 2
    let x := x >>> 2
    let px := ((w + 3) >>> 2) * y + x
    let px_opa := (buf px &&& (3 <<< (6 - bit))) >>> (6 - bit)
    opa_table_2bit.getD px_opa 0
  | .LV_IMG_CF_ALPHA_4BIT =>
    let bit := (x &&& 0x1) * 4
    let x := x >>> 1
    let px := ((w + 1) >>> 1) * y + x
    let px_opa := (buf px &&& (0xF <<< (4 - bit))) >>> (4 - bit)
    opa_table_4bit.getD px_opa 0
  | .LV_IMG_CF_ALPHA_8BIT =>
    let px := w * y + x
    buf px
  | _ => LV_OPA_COVER

/-- Pixel alpha getter (`lv_img_buf_get_px_alpha`): clamp both coordinates,
then dispatch on the format. -/
def lv_img_buf_get_px_alpha (dsc : lv_img_dsc_t) (x y : Int) : Nat :=
  getPxAlphaCore dsc (clampCoord dsc.header.w x).toNat (clampCoord dsc.header.h y).toNat

/-- Pixel color setter (`lv_img_buf_set_px_color`). The source applies no
clamping or sign handling here, so coordinates are embedded as naturals (the
nonnegative range of `lv_coord_t`). Formats without a branch in the source
(alpha-only, raw, unknown) leave the descriptor untouched. -/
def lv_img_buf_set_px_color (dsc : lv_img_dsc_t) (x y : Nat) (c : Nat) : lv_img_dsc_t :=
  let w := dsc.header.w
  let buf := dsc.data
  match dsc.header.cf with
  | .LV_IMG_CF_TRUE_COLOR | .LV_IMG_CF_TRUE_COLOR_CHROMA_KEYED =>
    let px_size := lv_img_color_format_get_px_size dsc.header.cf >>> 3
    let px := w * y * px_size + x * px_size
    { dsc with data := updByte (updByte buf px (c &&& 0xFF)) (px + 1) ((c >>> 8) &&& 0xFF) }
  | .LV_IMG_CF_TRUE_COLOR_ALPHA =>
    let px_size := lv_img_color_format_get_px_size dsc.header.cf >>> 3
    let px := w * y * px_size + x * px_size
    { dsc with data := updByte (updByte buf px (c &&& 0xFF)) (px + 1) ((c >>> 8) &&& 0xFF) }
  | .LV_IMG_CF_INDEXED_1BIT =>
    let bit := x &&& 0x7
    let x := x >>> 3
    let px := 4 * 2 + (((w + 7) >>> 3) * y + x)
    let b := (buf px &&& (0xFF ^^^ (1 <<< (7 - bit)))) ||| ((c &&& 0x1) <<< (7 - bit))
    { dsc with data := updByte buf px b }
  | .LV_IMG_CF_INDEXED_2BIT =>
    let bit := (x &&& 0x3) * 2
    let x := x >>> 2
    let px := 4 * 4 + (((w + 3) >>> 2) * y + x)
    let b := (buf px &&& (0xFF ^^^ (3 <<< (6 - bit)))) ||| ((c &&& 0x3) <<< (6 - bit))
    { dsc with data := updByte buf px b }
  | .LV_IMG_CF_INDEXED_4BIT =>
    let bit := (x &&& 0x1) * 4
    let x := x >>> 1
    let px := 4 * 16 + (((w + 1) >>> 1) * y + x)
    let b := (buf px &&& (0xFF ^^^ (0xF <<< (4 - bit)))) ||| ((c &&& 0xF) <<< (4 - bit))
    { dsc with data := updByte buf px b }
  | .LV_IMG_CF_INDEXED_8BIT =>
    let px := 4 * 256 + (w * y + x)
    { dsc with data := updByte buf px (c &&& 0xFF) }
  | _ => dsc

/-- Pixel alpha setter (`lv_img_buf_set_px_alpha`). The source applies no
clamping or sign handling here, so coordinates are embedded as naturals (the
nonnegative range of `lv_coord_t`). -/
def lv_img_buf_set_px_alpha (dsc : lv_img_dsc_t) (x y : Nat) (opa : Nat) : lv_img_dsc_t :=
  let w := dsc.header.w
  let buf := dsc.data
  match dsc.header.cf with
  | .LV_IMG_CF_TRUE_COLOR_ALPHA =>
    let px_size := lv_img_color_format_get_px_size dsc.header.cf >>> 3
    let px := w * y * px_size + x * px_size
    { dsc with data := updByte buf (px + px_size - 1) opa }
  | .LV_IMG_CF_ALPHA_1BIT =>
    let opa := opa >>> 7
    let bit := x &&& 0x7
    let x := x >>> 3
    let px := ((w + 7) >>> 3) * y + x
    let b := (buf px &&& (0xFF ^^^ (1 <<< (7 - bit)))) ||| ((opa &&& 0x1) <<< (7 - bit))
    { dsc with data := updByte buf px b }
  | .LV_IMG_CF_ALPHA_2BIT =>
    let opa := opa >>> 6
    let bit := (x &&& 0x3) * 2
    let x := x >>> 2
    let px := ((w + 3) >>> 2) * y + x
    let b := (buf px &&& (0xFF ^^^ (3 <<< (6 - bit)))) ||| ((opa &&& 0x3) <<< (6 - bit))
    { dsc with data := updByte buf px b }
  | .LV_IMG_CF_ALPHA_4BIT =>
    let opa := opa >>> 4
    let bit := (x &&& 0x1) * 4
    let x := x >>> 1
    let px := ((w + 1) >>> 1) * y + x
    let b := (buf px &&& (0xFF ^^^ (0xF <<< (4 - bit)))) ||| ((opa &&& 0xF) <<< (4 - bit))
    { dsc with data := updByte buf px b }
  | .LV_IMG_CF_ALPHA_8BIT =>
    let px := w * y + x
    { dsc with data := updByte buf px opa }
  | _ => dsc

/-- Conversion of a color to its 32-bit form. Modelled from the spec:
`lv_color_to32` lives in the color header, not under src/; palette entries are
stored as 4-byte color values. -/
def lv_color_to32 (c : Nat) : Nat := c % 2 ^ 32

/-- Palette write (`lv_img_buf_set_palette`): the guard rejects (returning the
descriptor unmodified) exactly the cases the source tests — the `ALPHA` formats
with an out-of-range id, and `ALPHA_8BIT` always — and otherwise stores the
32-bit color at byte offset `id * 4` of the buffer. -/
def lv_img_buf_set_palette (dsc : lv_img_dsc_t) (id : Nat) (c : Nat) : lv_img_dsc_t :=
  if (dsc.header.cf = .LV_IMG_CF_ALPHA_1BIT ∧ id > 1) ∨
     (dsc.header.cf = .LV_IMG_CF_ALPHA_2BIT ∧ id > 3) ∨
     (dsc.header.cf = .LV_IMG_CF_ALPHA_4BIT ∧ id > 15) ∨
     dsc.header.cf = .LV_IMG_CF_ALPHA_8BIT then
    dsc
  else
    let c32 := lv_color_to32 c
    let base := id * 4
    let d1 := updByte dsc.data base (c32 &&& 0xFF)
    let d2 := updByte d1 (base + 1) ((c32 >>> 8) &&& 0xFF)
    let d3 := updByte d2 (base + 2) ((c32 >>> 16) &&& 0xFF)
    let d4 := updByte d3 (base + 3) ((c32 >>> 24) &&& 0xFF)
    { dsc with data := d4 }

/-- Fast-path condition of `lv_draw_map`: zero external masks, no chroma key,
no alpha byte, fully opaque, no recolor. -/
def drawMapFastCond (mask_cnt : Nat) (chroma_key alpha_byte : Bool)
    (opa recolor_opa : Nat) : Bool :=
  mask_cnt == 0 && chroma_key == false && alpha_byte == false &&
    opa == LV_OPA_COVER && recolor_opa == LV_OPA_TRANSP

/-! Helper lemmas about clamping and byte updates. -/

lemma clampCoord_of_lt {n x : Nat} (h : x < n) : (clampCoord n (x : Int)).toNat = x := by
  unfold clampCoord
  split
  · omega
  · split <;> omega

lemma updByte_same (f : Nat → Nat) (i v : Nat) : updByte f i v i = v := by
  simp [updByte]

lemma updByte_other (f : Nat → Nat) (i v n : Nat) (h : n ≠ i) : updByte f i v n = f n := by
  simp [updByte, h]

/-- Reading back a bit field just written into a byte: clearing an `n`-bit
slot at shift `s` of a byte and or-ing in a value recovers that value. -/
lemma maskWriteReadBit (old v s n : Nat) (hs : s + n ≤ 8) (hv : v < 2 ^ n) :
    (((old &&& (0xFF ^^^ ((2 ^ n - 1) <<< s))) ||| (v <<< s)) &&& ((2 ^ n - 1) <<< s)) >>> s
      = v := by
  have h1 : ((old &&& (0xFF ^^^ ((2 ^ n - 1) <<< s))) ||| (v <<< s)) &&& ((2 ^ n - 1) <<< s)
      = v <<< s := by
    apply Nat.eq_of_testBit_eq
    intro i
    have h255 : (0xFF : Nat) = 2 ^ 8 - 1 := by norm_num
    simp only [h255, Nat.testBit_and, Nat.testBit_or, Nat.testBit_xor, Nat.testBit_shiftLeft,
      Nat.testBit_two_pow_sub_one]
    by_cases hsi : s ≤ i
    · by_cases hin : i - s < n
      · have hi8 : i < 8 := by omega
        simp [hsi, hin, hi8]
      · have hvb : v.testBit (i - s) = false := by
          apply Nat.testBit_lt_two_pow
          calc v < 2 ^ n := hv
            _ ≤ 2 ^ (i - s) := Nat.pow_le_pow_right (by norm_num) (by omega)
        simp [hsi, hin, hvb]
    · simp [hsi]
  rw [h1, Nat.shiftLeft_eq, Nat.shiftRight_eq_div_pow]
  exact Nat.mul_div_cancel v (Nat.pos_pow_of_pos s (by norm_num))

/-! Claim theorems for the classifier, the capability table, the alpha-format
color setter and the palette writer. -/

/-- C6: `classify(source)` returns Unknown for a null handle; otherwise File
when the first byte is in 0x20..0x7F, Symbol when it is at least 0x80, and
Variable when it is below 0x20. -/
theorem C6_src_get_type (b : Nat) :
    lv_img_src_get_type none = .LV_IMG_SRC_UNKNOWN
    ∧ (0x20 ≤ b → b ≤ 0x7F → lv_img_src_get_type (some b) = .LV_IMG_SRC_FILE)
    ∧ (0x80 ≤ b → lv_img_src_get_type (some b) = .LV_IMG_SRC_SYMBOL)
    ∧ (b < 0x20 → lv_img_src_get_type (some b) = .LV_IMG_SRC_VARIABLE) := by
  refine ⟨rfl, ?_, ?_, ?_⟩
  · intro h1 h2
    simp [lv_img_src_get_type, h1, h2]
  · intro h
    have h1 : ¬(0x20 ≤ b ∧ b ≤ 0x7F) := by omega
    simp [lv_img_src_get_type, h1, h]
  · intro h
    have h1 : ¬(0x20 ≤ b ∧ b ≤ 0x7F) := by omega
    have h2 : ¬(0x80 ≤ b) := by omega
    simp [lv_img_src_get_type, h1, h2]

/-- Witness for C6 at concrete first bytes 0x41, 0x90 and 0x05. -/
theorem C6_src_get_type_witness :
    lv_img_src_get_type (some 0x41) = .LV_IMG_SRC_FILE
    ∧ lv_img_src_get_type (some 0x90) = .LV_IMG_SRC_SYMBOL
    ∧ lv_img_src_get_type (some 0x05) = .LV_IMG_SRC_VARIABLE :=
  ⟨(C6_src_get_type 0x41).2.1 (by norm_num) (by norm_num),
   (C6_src_get_type 0x90).2.2.1 (by norm_num),
   (C6_src_get_type 0x05).2.2.2 (by norm_num)⟩

/-- C9: the chroma-key capability lookup is true exactly for the chroma-keyed
truecolor and raw formats and the four indexed formats, and for any indexed
format the compositor's bulk fast-path condition is false. -/
theorem C9_chroma_keyed_table (cf : lv_img_cf_t) :
    (lv_img_color_format_is_chroma_keyed cf = true ↔
      (cf = .LV_IMG_CF_TRUE_COLOR_CHROMA_KEYED ∨ cf = .LV_IMG_CF_RAW_CHROMA_KEYED ∨
       cf = .LV_IMG_CF_INDEXED_1BIT ∨ cf = .LV_IMG_CF_INDEXED_2BIT ∨
       cf = .LV_IMG_CF_INDEXED_4BIT ∨ cf = .LV_IMG_CF_INDEXED_8BIT))
    ∧ (∀ mask_cnt alpha_byte opa recolor_opa,
        (cf = .LV_IMG_CF_INDEXED_1BIT ∨ cf = .LV_IMG_CF_INDEXED_2BIT ∨
         cf = .LV_IMG_CF_INDEXED_4BIT ∨ cf = .LV_IMG_CF_INDEXED_8BIT) →
        drawMapFastCond mask_cnt (lv_img_color_format_is_chroma_keyed cf)
          alpha_byte opa recolor_opa = false) := by
  constructor
  · cases cf <;> simp [lv_img_color_format_is_chroma_keyed]
  · intro mask_cnt alpha_byte opa recolor_opa h
    rcases h with h | h | h | h <;> subst h <;>
      simp [drawMapFastCond, lv_img_color_format_is_chroma_keyed]

/-- Witness for C9 at the 1-bit indexed format. -/
theorem C9_chroma_keyed_table_witness :
    drawMapFastCond 0 (lv_img_color_format_is_chroma_keyed .LV_IMG_CF_INDEXED_1BIT)
      false 255 0 = false :=
  (C9_chroma_keyed_table .LV_IMG_CF_INDEXED_1BIT).2 0 false 255 0 (Or.inl rfl)

/-- C10: on the four alpha-only formats, `set_pixel_color` leaves every byte of
the buffer unchanged, while `get_pixel_color` returns the style's foreground
color (for any coordinates, clamped or not). -/
theorem C10_set_px_color_noop_on_alpha (dsc : lv_img_dsc_t) (x y c : Nat)
    (x0 y0 : Int) (st : lv_style_t)
    (hcf : dsc.header.cf = .LV_IMG_CF_ALPHA_1BIT ∨ dsc.header.cf = .LV_IMG_CF_ALPHA_2BIT ∨
           dsc.header.cf = .LV_IMG_CF_ALPHA_4BIT ∨ dsc.header.cf = .LV_IMG_CF_ALPHA_8BIT) :
    (∀ i, (lv_img_buf_set_px_color dsc x y c).data i = dsc.data i)
    ∧ lv_img_buf_get_px_color dsc x0 y0 (some st) = st.image_color := by
  obtain ⟨⟨cf, w, h⟩, buf⟩ := dsc
  simp only at hcf
  rcases hcf with h | h | h | h <;> subst h <;>
    exact ⟨fun i => rfl, rfl⟩

/-- Witness for C10 on a concrete 2-bit alpha image. -/
theorem C10_set_px_color_noop_on_alpha_witness :
    (∀ i, (lv_img_buf_set_px_color ⟨⟨.LV_IMG_CF_ALPHA_2BIT, 4, 1⟩, fun _ => 9⟩ 1 0 3).data i
        = (fun _ => 9 : Nat → Nat) i)
    ∧ lv_img_buf_get_px_color ⟨⟨.LV_IMG_CF_ALPHA_2BIT, 4, 1⟩, fun _ => 9⟩ 0 0
        (some ⟨77, 255, 0⟩) = 77 :=
  C10_set_px_color_noop_on_alpha ⟨⟨.LV_IMG_CF_ALPHA_2BIT, 4, 1⟩, fun _ => 9⟩ 1 0 3 0 0
    ⟨77, 255, 0⟩ (Or.inr (Or.inl rfl))

/-- Test image for the palette-write claim: a 1-bit indexed image whose
palette occupies bytes 0..7 (two 4-byte entries); pixel data starts at byte 8. -/
def dscIndexed1Test : lv_img_dsc_t := ⟨⟨.LV_IMG_CF_INDEXED_1BIT, 8, 1⟩, fun _ => 0⟩

/-- C8 (code bug): `set_palette_entry` on a 1-bit indexed image accepts the
out-of-range id 2 (the palette has entries 0..1 only) and writes the color at
byte offset 8, past the palette and into pixel data, instead of failing with
the buffer unmodified as the claim and the function's own doc comment require:
the guard in the source tests the `ALPHA` formats instead of the `INDEXED`
ones. -/
theorem C8_set_palette_indexed_overrun :
    (lv_img_buf_set_palette dscIndexed1Test 2 1).data 8 = 1
    ∧ dscIndexed1Test.data 8 = 0
    ∧ (lv_img_buf_set_palette dscIndexed1Test 2 1).data 8 ≠ dscIndexed1Test.data 8 := by
  exact ⟨rfl, rfl, by decide⟩

/-! Raw bit-field extraction at a pixel of the alpha formats, mirroring the
addressing of `lv_img_buf_get_px_alpha`. -/

/-- Raw stored bit of a 1-bit alpha pixel. -/
def alpha1RawBit (dsc : lv_img_dsc_t) (x y : Nat) : Nat :=
  let bit := x &&& 0x7
  (dsc.data (((dsc.header.w + 7) >>> 3) * y + (x >>> 3)) &&& (1 <<< (7 - bit))) >>> (7 - bit)

/-- Raw stored 2-bit index of a 2-bit alpha pixel. -/
def alpha2RawIdx (dsc : lv_img_dsc_t) (x y : Nat) : Nat :=
  let bit := (x &&& 0x3) * 2
  (dsc.data (((dsc.header.w + 3) >>> 2) * y + (x >>> 2)) &&& (3 <<< (6 - bit))) >>> (6 - bit)

/-- Raw stored 4-bit index of a 4-bit alpha pixel. -/
def alpha4RawIdx (dsc : lv_img_dsc_t) (x y : Nat) : Nat :=
  let bit := (x &&& 0x1) * 4
  (dsc.data (((dsc.header.w + 1) >>> 1) * y + (x >>> 1)) &&& (0xF <<< (4 - bit))) >>> (4 - bit)

/-- Quantization step of each alpha format: the distance between adjacent
representable opacity levels (255 / (2^bits - 1)). -/
def alphaQuantStep (cf : lv_img_cf_t) : Nat :=
  match cf with
  | .LV_IMG_CF_ALPHA_1BIT => 255
  | .LV_IMG_CF_ALPHA_2BIT => 85
  | .LV_IMG_CF_ALPHA_4BIT => 17
  | .LV_IMG_CF_ALPHA_8BIT => 1
  | _ => 0

/-! Specializations of `maskWriteReadBit` to the literal masks of the source. -/

lemma maskWriteReadBit1 (old v s : Nat) (hs : s ≤ 7) (hv : v < 2) :
    (((old &&& (0xFF ^^^ (1 <<< s))) ||| (v <<< s)) &&& (1 <<< s)) >>> s = v := by
  have h := maskWriteReadBit old v s 1 (by omega) (by omega)
  norm_num at h
  exact h

lemma maskWriteReadBit2 (old v s : Nat) (hs : s ≤ 6) (hv : v < 4) :
    (((old &&& (0xFF ^^^ (3 <<< s))) ||| (v <<< s)) &&& (3 <<< s)) >>> s = v := by
  have h := maskWriteReadBit old v s 2 (by omega) (by omega)
  norm_num at h
  exact h

lemma maskWriteReadBit4 (old v s : Nat) (hs : s ≤ 4) (hv : v < 16) :
    (((old &&& (0xFF ^^^ (0xF <<< s))) ||| (v <<< s)) &&& (0xF <<< s)) >>> s = v := by
  have h := maskWriteReadBit old v s 4 (by omega) (by omega)
  norm_num at h
  exact h

/-- The 2-bit opacity table holds 85 * index at each of its four entries. -/
lemma opa_table_2bit_getD (q : Nat) (hq : q < 4) : opa_table_2bit.getD q 0 = 85 * q := by
  interval_cases q <;> rfl

/-- The 4-bit opacity table holds 17 * index at each of its sixteen entries. -/
lemma opa_table_4bit_getD (q : Nat) (hq : q < 16) : opa_table_4bit.getD q 0 = 17 * q := by
  interval_cases q <;> rfl

/-- An n-bit field extracted by masking and shifting is at most the mask. -/
lemma extractLe (b m s : Nat) : (b &&& (m <<< s)) >>> s ≤ m := by
  rw [Nat.shiftRight_eq_div_pow]
  calc (b &&& (m <<< s)) / 2 ^ s ≤ (m <<< s) / 2 ^ s := by
        exact Nat.div_le_div_right Nat.and_le_right
    _ = m := by rw [Nat.shiftLeft_eq]; exact Nat.mul_div_cancel m (Nat.pos_pow_of_pos s (by norm_num))

/-! Reduction of the clamped getters to their cores on in-range coordinates,
and header preservation by the setters. -/

lemma get_px_alpha_in_range (dsc : lv_img_dsc_t) (x y : Nat)
    (hx : x < dsc.header.w) (hy : y < dsc.header.h) :
    lv_img_buf_get_px_alpha dsc x y = getPxAlphaCore dsc x y := by
  unfold lv_img_buf_get_px_alpha
  rw [clampCoord_of_lt hx, clampCoord_of_lt hy]

lemma get_px_color_in_range (dsc : lv_img_dsc_t) (x y : Nat) (style : Option lv_style_t)
    (hx : x < dsc.header.w) (hy : y < dsc.header.h) :
    lv_img_buf_get_px_color dsc x y style = getPxColorCore dsc x y style := by
  unfold lv_img_buf_get_px_color
  rw [clampCoord_of_lt hx, clampCoord_of_lt hy]

lemma set_px_alpha_header (dsc : lv_img_dsc_t) (x y v : Nat) :
    (lv_img_buf_set_px_alpha dsc x y v).header = dsc.header := by
  rcases dsc with ⟨⟨cf, w, h⟩, buf⟩
  cases cf <;> rfl

/-- C5: on in-range coordinates, `get_pixel_alpha` maps a 1-bit pixel to
fully-opaque when the stored bit is 0 and fully-transparent when it is 1, maps
a 2-bit pixel through exactly the table {0, 85, 170, 255}, and maps a 4-bit
pixel through exactly the sixteen evenly spaced steps 17 * raw. -/
theorem C5_get_px_alpha_tables (dsc : lv_img_dsc_t) (x y : Nat)
    (hx : x < dsc.header.w) (hy : y < dsc.header.h) :
    (dsc.header.cf = .LV_IMG_CF_ALPHA_1BIT →
      lv_img_buf_get_px_alpha dsc x y =
        if alpha1RawBit dsc x y = 0 then LV_OPA_COVER else LV_OPA_TRANSP)
    ∧ (dsc.header.cf = .LV_IMG_CF_ALPHA_2BIT →
      lv_img_buf_get_px_alpha dsc x y = opa_table_2bit.getD (alpha2RawIdx dsc x y) 0)
    ∧ (dsc.header.cf = .LV_IMG_CF_ALPHA_4BIT →
      lv_img_buf_get_px_alpha dsc x y = opa_table_4bit.getD (alpha4RawIdx dsc x y) 0
      ∧ lv_img_buf_get_px_alpha dsc x y = 17 * alpha4RawIdx dsc x y) := by
  rw [get_px_alpha_in_range dsc x y hx hy]
  rcases dsc with ⟨⟨cf, w, h⟩, buf⟩
  refine ⟨?_, ?_, ?_⟩ <;> intro hcf <;> subst hcf
  · rfl
  · rfl
  · refine ⟨rfl, ?_⟩
    have hle : alpha4RawIdx ⟨⟨.LV_IMG_CF_ALPHA_4BIT, w, h⟩, buf⟩ x y ≤ 0xF := extractLe _ _ _
    have h4 : getPxAlphaCore ⟨⟨.LV_IMG_CF_ALPHA_4BIT, w, h⟩, buf⟩ x y
        = opa_table_4bit.getD (alpha4RawIdx ⟨⟨.LV_IMG_CF_ALPHA_4BIT, w, h⟩, buf⟩ x y) 0 := rfl
    rw [h4, opa_table_4bit_getD _ (by omega)]

/-- Witness for C5 on a concrete 2-bit alpha image whose pixel (1,0) stores
raw index 2. -/
theorem C5_get_px_alpha_tables_witness :
    lv_img_buf_get_px_alpha ⟨⟨.LV_IMG_CF_ALPHA_2BIT, 4, 1⟩, fun i => if i = 0 then 0x20 else 0⟩ 1 0
      = opa_table_2bit.getD
          (alpha2RawIdx ⟨⟨.LV_IMG_CF_ALPHA_2BIT, 4, 1⟩, fun i => if i = 0 then 0x20 else 0⟩ 1 0) 0 :=
  (C5_get_px_alpha_tables ⟨⟨.LV_IMG_CF_ALPHA_2BIT, 4, 1⟩, fun i => if i = 0 then 0x20 else 0⟩
    1 0 (by decide) (by decide)).2.1 rfl

/-- C1: on every alpha format, `set_pixel_alpha` followed by `get_pixel_alpha`
at the same in-range coordinate returns a value within one quantization step
of the original opacity, and a 2-bit pixel whose raw stored index is 2 reads
back as opacity 170. -/
theorem C1_set_get_px_alpha_quantized (dsc : lv_img_dsc_t) (x y v : Nat)
    (hcf : dsc.header.cf = .LV_IMG_CF_ALPHA_1BIT ∨ dsc.header.cf = .LV_IMG_CF_ALPHA_2BIT ∨
           dsc.header.cf = .LV_IMG_CF_ALPHA_4BIT ∨ dsc.header.cf = .LV_IMG_CF_ALPHA_8BIT)
    (hx : x < dsc.header.w) (hy : y < dsc.header.h) (hv : v < 256) :
    (lv_img_buf_get_px_alpha (lv_img_buf_set_px_alpha dsc x y v) x y
        ≤ v + alphaQuantStep dsc.header.cf
      ∧ v ≤ lv_img_buf_get_px_alpha (lv_img_buf_set_px_alpha dsc x y v) x y
            + alphaQuantStep dsc.header.cf)
    ∧ (dsc.header.cf = .LV_IMG_CF_ALPHA_2BIT → alpha2RawIdx dsc x y = 2 →
        lv_img_buf_get_px_alpha dsc x y = 170) := by
  constructor
  · rcases dsc with ⟨⟨cf, w, h⟩, buf⟩
    rcases hcf with h | h | h | h
    · subst h
      rw [get_px_alpha_in_range _ x y (by simpa [set_px_alpha_header] using hx)
        (by simpa [set_px_alpha_header] using hy)]
      simp only [lv_img_buf_set_px_alpha, getPxAlphaCore, updByte_same, alphaQuantStep,
        LV_OPA_COVER, LV_OPA_TRANSP]
      rw [maskWriteReadBit1]
      · rw [Nat.and_one_is_mod, Nat.shiftRight_eq_div_pow]
        norm_num
        split <;> omega
      · omega
      · exact Nat.and_lt_two_pow _ (show (0x1 : Nat) < 2 ^ 1 by norm_num)
    · subst h
      rw [get_px_alpha_in_range _ x y (by simpa [set_px_alpha_header] using hx)
        (by simpa [set_px_alpha_header] using hy)]
      simp only [lv_img_buf_set_px_alpha, getPxAlphaCore, updByte_same, alphaQuantStep]
      rw [maskWriteReadBit2]
      · have h3 : (v >>> 6) &&& 0x3 = v / 64 := by
          rw [Nat.shiftRight_eq_div_pow]
          norm_num
          rw [show (3 : Nat) = 2 ^ 2 - 1 by norm_num,
            Nat.and_pow_two_sub_one_of_lt_two_pow (show v / 64 < 2 ^ 2 by omega)]
        rw [h3, opa_table_2bit_getD _ (by omega)]
        omega
      · omega
      · exact Nat.and_lt_two_pow _ (show (0x3 : Nat) < 2 ^ 2 by norm_num)
    · subst h
      rw [get_px_alpha_in_range _ x y (by simpa [set_px_alpha_header] using hx)
        (by simpa [set_px_alpha_header] using hy)]
      simp only [lv_img_buf_set_px_alpha, getPxAlphaCore, updByte_same, alphaQuantStep]
      rw [maskWriteReadBit4]
      · have h4 : (v >>> 4) &&& 0xF = v / 16 := by
          rw [Nat.shiftRight_eq_div_pow]
          norm_num
          rw [show (15 : Nat) = 2 ^ 4 - 1 by norm_num,
            Nat.and_pow_two_sub_one_of_lt_two_pow (show v / 16 < 2 ^ 4 by omega)]
        rw [h4, opa_table_4bit_getD _ (by omega)]
        omega
      · omega
      · exact Nat.and_lt_two_pow _ (show (0xF : Nat) < 2 ^ 4 by norm_num)
    · subst h
      rw [get_px_alpha_in_range _ x y (by simpa [set_px_alpha_header] using hx)
        (by simpa [set_px_alpha_header] using hy)]
      simp only [lv_img_buf_set_px_alpha, getPxAlphaCore, updByte_same, alphaQuantStep]
      omega
  · intro h2 hraw
    rw [get_px_alpha_in_range dsc x y hx hy]
    rcases dsc with ⟨⟨cf, w, h⟩, buf⟩
    cases h2
    have hc : getPxAlphaCore ⟨⟨.LV_IMG_CF_ALPHA_2BIT, w, h⟩, buf⟩ x y
        = opa_table_2bit.getD (alpha2RawIdx ⟨⟨.LV_IMG_CF_ALPHA_2BIT, w, h⟩, buf⟩ x y) 0 := rfl
    rw [hc, hraw]
    rfl

/-- Witness for C1 on a concrete 2-bit alpha image at (2,0) with opacity 100. -/
theorem C1_set_get_px_alpha_quantized_witness :
    lv_img_buf_get_px_alpha
        (lv_img_buf_set_px_alpha ⟨⟨.LV_IMG_CF_ALPHA_2BIT, 4, 1⟩, fun _ => 0⟩ 2 0 100) 2 0
      ≤ 100 + alphaQuantStep .LV_IMG_CF_ALPHA_2BIT
    ∧ 100 ≤ lv_img_buf_get_px_alpha
        (lv_img_buf_set_px_alpha ⟨⟨.LV_IMG_CF_ALPHA_2BIT, 4, 1⟩, fun _ => 0⟩ 2 0 100) 2 0
          + alphaQuantStep .LV_IMG_CF_ALPHA_2BIT :=
  (C1_set_get_px_alpha_quantized ⟨⟨.LV_IMG_CF_ALPHA_2BIT, 4, 1⟩, fun _ => 0⟩ 2 0 100
    (Or.inr (Or.inl rfl)) (by decide) (by decide) (by decide)).1

/-- C4 fails on the code: the pixel setters perform no clamping. On a 2-by-2
8-bit-alpha image (its pixels occupy byte indices `w * y + x < 4`),
`set_pixel_alpha` at the out-of-range coordinate (0, 2) writes byte index 4,
an address owned by no in-range pixel — the write lands outside
[0,width)x[0,height). -/
theorem C4_setters_do_not_clamp_counterexample :
    (lv_img_buf_set_px_alpha ⟨⟨.LV_IMG_CF_ALPHA_8BIT, 2, 2⟩, fun _ => 0⟩ 0 2 7).data 4 = 7
    ∧ (fun _ => 0 : Nat → Nat) 4 = 0
    ∧ (∀ x, x < 2 → ∀ y, y < 2 → 2 * y + x ≠ 4) :=
  ⟨rfl, rfl, by decide⟩

/-- C4 amended: the two getters clamp their coordinates before addressing —
`get_pixel_color(-1,-1) = get_pixel_color(0,0)` and
`get_pixel_color(width,height) = get_pixel_color(width-1,height-1)`, likewise
for `get_pixel_alpha` — but the two setters apply no clamping and can address
outside the image (see the counterexample). -/
theorem C4_getters_clamp (dsc : lv_img_dsc_t) (style : Option lv_style_t)
    (hw : 1 ≤ dsc.header.w) (hh : 1 ≤ dsc.header.h) :
    lv_img_buf_get_px_color dsc (-1) (-1) style = lv_img_buf_get_px_color dsc 0 0 style
    ∧ lv_img_buf_get_px_color dsc dsc.header.w dsc.header.h style
        = lv_img_buf_get_px_color dsc ((dsc.header.w : Int) - 1) ((dsc.header.h : Int) - 1) style
    ∧ lv_img_buf_get_px_alpha dsc (-1) (-1) = lv_img_buf_get_px_alpha dsc 0 0
    ∧ lv_img_buf_get_px_alpha dsc dsc.header.w dsc.header.h
        = lv_img_buf_get_px_alpha dsc ((dsc.header.w : Int) - 1) ((dsc.header.h : Int) - 1) := by
  have e1 : (clampCoord dsc.header.w (-1)).toNat = (clampCoord dsc.header.w 0).toNat := by
    unfold clampCoord
    split_ifs <;> omega
  have e2 : (clampCoord dsc.header.h (-1)).toNat = (clampCoord dsc.header.h 0).toNat := by
    unfold clampCoord
    split_ifs <;> omega
  have e3 : (clampCoord dsc.header.w dsc.header.w).toNat
      = (clampCoord dsc.header.w ((dsc.header.w : Int) - 1)).toNat := by
    unfold clampCoord
    split_ifs <;> omega
  have e4 : (clampCoord dsc.header.h dsc.header.h).toNat
      = (clampCoord dsc.header.h ((dsc.header.h : Int) - 1)).toNat := by
    unfold clampCoord
    split_ifs <;> omega
  unfold lv_img_buf_get_px_color lv_img_buf_get_px_alpha
  rw [e1, e2, e3, e4]
  exact ⟨rfl, rfl, rfl, rfl⟩

/-- Witness for C4's amended theorem on a concrete 2-by-2 truecolor image. -/
theorem C4_getters_clamp_witness :
    lv_img_buf_get_px_color ⟨⟨.LV_IMG_CF_TRUE_COLOR, 2, 2⟩, fun i => i⟩ (-1) (-1) none
      = lv_img_buf_get_px_color ⟨⟨.LV_IMG_CF_TRUE_COLOR, 2, 2⟩, fun i => i⟩ 0 0 none
    ∧ lv_img_buf_get_px_alpha ⟨⟨.LV_IMG_CF_TRUE_COLOR, 2, 2⟩, fun i => i⟩ 2 2
      = lv_img_buf_get_px_alpha ⟨⟨.LV_IMG_CF_TRUE_COLOR, 2, 2⟩, fun i => i⟩ ((2 : Int) - 1) ((2 : Int) - 1) :=
  ⟨(C4_getters_clamp ⟨⟨.LV_IMG_CF_TRUE_COLOR, 2, 2⟩, fun i => i⟩ none (by decide) (by decide)).1,
   (C4_getters_clamp ⟨⟨.LV_IMG_CF_TRUE_COLOR, 2, 2⟩, fun i => i⟩ none (by decide) (by decide)).2.2.2⟩

/-! Compositor control flow: areas, the cache/decoder collaborators, and the
observable events of `lv_img_draw_core`. -/

/-- An axis-aligned integer rectangle (`lv_area_t`), corners inclusive. -/
structure lv_area_t where
  x1 : Int
  y1 : Int
  x2 : Int
  y2 : Int
  deriving DecidableEq, Repr

/-- Width of an area (`lv_area_get_width`). -/
def lv_area_get_width (a : lv_area_t) : Int := a.x2 - a.x1 + 1

/-- Height of an area (`lv_area_get_height`). -/
def lv_area_get_height (a : lv_area_t) : Int := a.y2 - a.y1 + 1

/-- Modelled from the spec: rectangle intersection (`lv_area_intersect`, in
`lv_misc/lv_area.c`, not under src/) — DrawRect.intersect returns the common
area or signals emptiness. -/
def lv_area_intersect (a b : lv_area_t) : Option lv_area_t :=
  let r : lv_area_t := ⟨max a.x1 b.x1, max a.y1 b.y1, min a.x2 b.x2, min a.y2 b.y2⟩
  if r.x1 ≤ r.x2 ∧ r.y1 ≤ r.y2 then some r else none

/-- Result codes (`lv_res_t`). -/
inductive lv_res_t where
  | LV_RES_OK
  | LV_RES_INV
  deriving DecidableEq, Repr

/-- Decoder session exposed by an opened cache entry
(`lv_img_cache_entry_t.dec_dsc`). Modelled from the spec: the cache/decoder
subsystem is an external collaborator; an opened entry either carries a decode
error message, or a fully decoded buffer, or supports scan-line reads. -/
structure lv_img_cache_entry_t where
  error_msg : Option String
  img_data : Option (Nat → Nat)
  header_cf : lv_img_cf_t

/-- Modelled from the spec: the collaborator calls consumed by
`lv_img_draw_core` — the result of `lv_img_cache_open(src, style)` and the
scan-line reader `lv_img_decoder_read_line(x, y, width)`, which returns the
decoded row bytes or fails. -/
structure DrawCoreEnv where
  cache_open : Option lv_img_cache_entry_t
  read_line : Int → Int → Int → Option (Nat → Nat)

/-- Observable events of one `lv_img_draw_core` call: result code, whether
`lv_img_decoder_close` was called, whether the decode-error fallback was
drawn, whether the fully decoded buffer was composited in one `lv_draw_map`
call, the absolute rows read, and the absolute rows composited through
`lv_draw_map` on the streaming path. -/
structure DrawCoreTrace where
  res : lv_res_t
  closed : Bool
  fallback_drawn : Bool
  full_draw : Bool
  rows_read : List Int
  rows_drawn : List Int

/-- The row-streaming loop of `lv_img_draw_core`: for each of `n` remaining
target rows (current absolute row `row`, current source row offset `y`), read
one scan-line; the first failed read closes the decoder and fails the draw,
discarding the remaining rows; a successful read is composited. -/
def drawCoreRows (env : DrawCoreEnv) (x width : Int) : Nat → Int → Int → DrawCoreTrace
  | 0, _row, _y => ⟨.LV_RES_OK, false, false, false, [], []⟩
  | n + 1, row, y =>
    match env.read_line x y width with
    | none => ⟨.LV_RES_INV, true, false, false, [row], []⟩
    | some _buf =>
      let t := drawCoreRows env x width n (row + 1) (y + 1)
      { t with rows_read := row :: t.rows_read, rows_drawn := row :: t.rows_drawn }

/-- Control flow of `lv_img_draw_core`, recording its observable events: empty
intersection is a successful no-op; failed cache open fails; a decode-error
entry draws the fallback and returns success; a full buffer is composited in
one call; otherwise rows are streamed via `drawCoreRows`. -/
def lv_img_draw_core (env : DrawCoreEnv) (coords mask : lv_area_t)
    (style : lv_style_t) (opa_scale : Nat) : DrawCoreTrace :=
  match lv_area_intersect mask coords with
  | none => ⟨.LV_RES_OK, false, false, false, [], []⟩
  | some mask_com =>
    let _opa := if opa_scale = LV_OPA_COVER then style.image_opa
                else (style.image_opa * opa_scale) >>> 8
    match env.cache_open with
    | none => ⟨.LV_RES_INV, false, false, false, [], []⟩
    | some cdsc =>
      match cdsc.error_msg with
      | some _msg => ⟨.LV_RES_OK, false, true, false, [], []⟩
      | none =>
        match cdsc.img_data with
        | some _data => ⟨.LV_RES_OK, false, false, true, [], []⟩
        | none =>
          let width := lv_area_get_width mask_com
          let x := mask_com.x1 - coords.x1
          let y := mask_com.y1 - coords.y1
          drawCoreRows env x width (lv_area_get_height mask_com).toNat mask_com.y1 y

/-- A cons on top of a shifted arithmetic row list extends the range by one. -/
lemma consShiftRange (row : Int) (k : Nat) :
    row :: List.map (fun j : Nat => (row + 1) + (j : Int)) (List.range k) =
      List.map (fun j : Nat => row + (j : Int)) (List.range (k + 1)) := by
  rw [List.range_succ_eq_map, List.map_cons, List.map_map]
  congr 1
  · simp
  · apply List.map_congr_left
    intro j _hj
    simp only [Function.comp_apply]
    push_cast
    ring

/-- On the first failing row `k` of the streaming loop, the loop stops having
read rows `row..row+k` and composited exactly rows `row..row+k-1`, closing the
decoder and failing. -/
lemma drawCoreRows_first_fail (env : DrawCoreEnv) (x width : Int) (k : Nat) :
    ∀ (n : Nat) (row y : Int), k < n →
    env.read_line x (y + k) width = none →
    (∀ j : Nat, j < k → env.read_line x (y + j) width ≠ none) →
    drawCoreRows env x width n row y =
      ⟨.LV_RES_INV, true, false, false,
        List.map (fun j : Nat => row + (j : Int)) (List.range (k + 1)),
        List.map (fun j : Nat => row + (j : Int)) (List.range k)⟩ := by
  induction k with
  | zero =>
    intro n row y hk hfail _hok
    obtain ⟨m, rfl⟩ : ∃ m, n = m + 1 := ⟨n - 1, by omega⟩
    have hy : y + ((0 : Nat) : Int) = y := by omega
    rw [hy] at hfail
    simp [drawCoreRows, hfail, List.range_succ]
  | succ k ih =>
    intro n row y hk hfail hok
    obtain ⟨m, rfl⟩ : ∃ m, n = m + 1 := ⟨n - 1, by omega⟩
    obtain ⟨b, hb⟩ : ∃ b, env.read_line x y width = some b := by
      have h0 := hok 0 (by omega)
      have hy : y + ((0 : Nat) : Int) = y := by omega
      rw [hy] at h0
      cases henv : env.read_line x y width with
      | none => exact absurd henv h0
      | some b => exact ⟨b, rfl⟩
    have hrec := ih m (row + 1) (y + 1) (by omega)
      (by
        have : y + 1 + (k : Int) = y + ((k + 1 : Nat) : Int) := by push_cast; ring
        rw [this]
        exact hfail)
      (by
        intro j hj
        have : y + 1 + (j : Int) = y + ((j + 1 : Nat) : Int) := by push_cast; ring
        rw [this]
        exact hok (j + 1) (by omega))
    simp only [drawCoreRows, hb, hrec]
    rw [DrawCoreTrace.mk.injEq]
    exact ⟨rfl, rfl, rfl, rfl, consShiftRange row (k + 1), consShiftRange row k⟩

/-- C3: in the row-streaming path, when the scan-line read for row `k` of the
intersection fails (rows before `k` having succeeded), `draw_image` reads no
row past `k`, composites exactly the rows before `k`, closes the decoder and
returns failure. -/
theorem C3_scanline_failure_aborts (env : DrawCoreEnv) (coords mask : lv_area_t)
    (style : lv_style_t) (opa_scale : Nat) (mask_com : lv_area_t)
    (cdsc : lv_img_cache_entry_t) (k : Nat)
    (hint : lv_area_intersect mask coords = some mask_com)
    (hopen : env.cache_open = some cdsc)
    (herr : cdsc.error_msg = none)
    (hdata : cdsc.img_data = none)
    (hk : k < (lv_area_get_height mask_com).toNat)
    (hfail : env.read_line (mask_com.x1 - coords.x1)
      (mask_com.y1 - coords.y1 + k) (lv_area_get_width mask_com) = none)
    (hok : ∀ j : Nat, j < k → env.read_line (mask_com.x1 - coords.x1)
      (mask_com.y1 - coords.y1 + j) (lv_area_get_width mask_com) ≠ none) :
    lv_img_draw_core env coords mask style opa_scale =
      ⟨.LV_RES_INV, true, false, false,
        List.map (fun j : Nat => mask_com.y1 + (j : Int)) (List.range (k + 1)),
        List.map (fun j : Nat => mask_com.y1 + (j : Int)) (List.range k)⟩ := by
  simp only [lv_img_draw_core, hint, hopen, herr, hdata]
  exact drawCoreRows_first_fail env (mask_com.x1 - coords.x1) (lv_area_get_width mask_com)
    k (lv_area_get_height mask_com).toNat mask_com.y1 (mask_com.y1 - coords.y1)
    hk hfail hok

/-- Streaming environment for the C3 witness: scan-line reads fail exactly at
source row offset 5. -/
def c3TestEnv : DrawCoreEnv :=
  ⟨some ⟨none, none, .LV_IMG_CF_TRUE_COLOR⟩,
   fun _ y _ => if y = 5 then none else some (fun _ => 0)⟩

/-- Witness for C3: a 10-row draw whose row 5 fails reads rows 0..5, draws
rows 0..4, closes the decoder and fails. -/
theorem C3_scanline_failure_aborts_witness :
    lv_img_draw_core c3TestEnv ⟨0, 0, 9, 9⟩ ⟨0, 0, 9, 9⟩ ⟨0, 255, 0⟩ 255 =
      ⟨.LV_RES_INV, true, false, false,
        List.map (fun j : Nat => (0 : Int) + (j : Int)) (List.range 6),
        List.map (fun j : Nat => (0 : Int) + (j : Int)) (List.range 5)⟩ :=
  C3_scanline_failure_aborts c3TestEnv ⟨0, 0, 9, 9⟩ ⟨0, 0, 9, 9⟩ ⟨0, 255, 0⟩ 255
    ⟨0, 0, 9, 9⟩ ⟨none, none, .LV_IMG_CF_TRUE_COLOR⟩ 5
    (by decide) rfl rfl rfl (by decide) rfl
    (by
      intro j hj
      interval_cases j <;> simp [c3TestEnv])

/-- The streaming loop closes the decoder exactly when one of its rows fails
to read. -/
lemma drawCoreRows_closed_iff (env : DrawCoreEnv) (x width : Int) :
    ∀ (n : Nat) (row y : Int),
    ((drawCoreRows env x width n row y).closed = true ↔
      ∃ j : Nat, j < n ∧ env.read_line x (y + j) width = none) := by
  intro n
  induction n with
  | zero =>
    intro row y
    simp [drawCoreRows]
  | succ m ih =>
    intro row y
    cases henv : env.read_line x y width with
    | none =>
      simp only [drawCoreRows, henv]
      constructor
      · intro _h
        exact ⟨0, by omega, by simpa using henv⟩
      · intro _h
        trivial
    | some b =>
      simp only [drawCoreRows, henv]
      rw [ih (row + 1) (y + 1)]
      constructor
      · rintro ⟨j, hj, hr⟩
        refine ⟨j + 1, by omega, ?_⟩
        have he : y + ((j + 1 : Nat) : Int) = y + 1 + (j : Int) := by push_cast; ring
        rw [he]
        exact hr
      · rintro ⟨j, hj, hr⟩
        cases j with
        | zero =>
          exfalso
          have he : y + ((0 : Nat) : Int) = y := by omega
          rw [he, henv] at hr
          exact Option.noConfusion hr
        | succ j' =>
          refine ⟨j', by omega, ?_⟩
          have he : y + 1 + (j' : Int) = y + ((j' + 1 : Nat) : Int) := by push_cast; ring
          rw [he]
          exact hr

/-- C7 fails on the code: the successful full-buffer path opens a cache entry
and returns without closing it (only the scan-line-failure path closes). -/
def c7TestEnv : DrawCoreEnv :=
  ⟨some ⟨none, some (fun _ => 0), .LV_IMG_CF_TRUE_COLOR⟩, fun _ _ _ => some (fun _ => 0)⟩

/-- Counterexample for C7: with an opened entry exposing a full decoded
buffer, `draw_image` succeeds but never closes the entry. -/
theorem C7_full_buffer_leaves_entry_open :
    c7TestEnv.cache_open.isSome = true
    ∧ (lv_img_draw_core c7TestEnv ⟨0, 0, 9, 9⟩ ⟨0, 0, 9, 9⟩ ⟨0, 255, 0⟩ 255).res = .LV_RES_OK
    ∧ (lv_img_draw_core c7TestEnv ⟨0, 0, 9, 9⟩ ⟨0, 0, 9, 9⟩ ⟨0, 255, 0⟩ 255).full_draw = true
    ∧ (lv_img_draw_core c7TestEnv ⟨0, 0, 9, 9⟩ ⟨0, 0, 9, 9⟩ ⟨0, 255, 0⟩ 255).closed = false :=
  ⟨rfl, rfl, rfl, rfl⟩

/-- C7 amended: `draw_image` closes the opened entry exactly on the early-abort
scan-line-failure path; the successful full-buffer path, the successful
row-streaming path and the decode-error fallback path leave it open (to the
cache). -/
theorem C7_close_iff_scanline_failure (env : DrawCoreEnv) (coords mask : lv_area_t)
    (style : lv_style_t) (opa_scale : Nat) :
    (lv_img_draw_core env coords mask style opa_scale).closed = true ↔
      ∃ mask_com, lv_area_intersect mask coords = some mask_com ∧
        (∃ cdsc, env.cache_open = some cdsc ∧ cdsc.error_msg = none ∧ cdsc.img_data = none) ∧
        ∃ j : Nat, j < (lv_area_get_height mask_com).toNat ∧
          env.read_line (mask_com.x1 - coords.x1)
            (mask_com.y1 - coords.y1 + j) (lv_area_get_width mask_com) = none := by
  cases hint : lv_area_intersect mask coords with
  | none => simp [lv_img_draw_core, hint]
  | some mask_com =>
    cases hopen : env.cache_open with
    | none => simp [lv_img_draw_core, hint, hopen]
    | some cdsc =>
      cases herr : cdsc.error_msg with
      | some msg => simp [lv_img_draw_core, hint, hopen, herr]
      | none =>
        cases hdata : cdsc.img_data with
        | some dat => simp [lv_img_draw_core, hint, hopen, herr, hdata]
        | none =>
          simp only [lv_img_draw_core, hint, hopen, herr, hdata]
          rw [drawCoreRows_closed_iff]
          simp [hopen, herr, hdata]

/-! The compositor row-block routine `lv_draw_map` and its collaborators. -/

/-- Mask-application verdicts (`lv_mask_res_t`). -/
inductive lv_mask_res_t where
  | LV_MASK_RES_FULL_COVER
  | LV_MASK_RES_CHANGED
  | LV_MASK_RES_FULL_TRANSP
  deriving DecidableEq, Repr

/-- A destination device buffer: absolute device coordinates to color value. -/
def DestBuf : Type := Int → Int → Nat

/-- One decoded 16-bit color, read little-endian at a byte offset
(`c.full = map_px[0] + (map_px[1] << 8)` under the fixed 16-bit config). -/
def readColor16 (m : Nat → Nat) (off : Nat) : Nat := m off + (m (off + 1)) <<< 8

/-- Per-pixel combination of the blend primitive. Modelled from the spec:
full coverage at full opacity writes the source color; zero coverage keeps
the destination; partial coverage mixes linearly. Only the full-cover case is
exercised by the fast/general-path equivalence. -/
def blendPx (dst src cover opa : Nat) : Nat :=
  if cover = 255 ∧ opa = 255 then src
  else if cover = 0 then dst
  else (src * cover * opa + dst * (255 * 255 - cover * opa)) / (255 * 255)

/-- Modelled from the spec: the external blend primitive `lv_blend_map`
(outside src/). For each device pixel of `clip ∩ area` it combines the
destination with the color at the pixel's row-major index into `colors`
(stride = width of `area`), under the per-pixel mask unless the mask result
signals full cover or full transparency, at the given opacity. -/
def lv_blend_map (clip area : lv_area_t) (colors : Nat → Nat)
    (mask : Option (Nat → Nat)) (mask_res : lv_mask_res_t) (opa : Nat)
    (dest : DestBuf) : DestBuf :=
  fun X Y =>
    if clip.x1 ≤ X ∧ X ≤ clip.x2 ∧ clip.y1 ≤ Y ∧ Y ≤ clip.y2 ∧
       area.x1 ≤ X ∧ X ≤ area.x2 ∧ area.y1 ≤ Y ∧ Y ≤ area.y2 then
      let i := ((Y - area.y1) * lv_area_get_width area + (X - area.x1)).toNat
      let cover : Nat :=
        match mask_res, mask with
        | .LV_MASK_RES_FULL_COVER, _ => 255
        | .LV_MASK_RES_FULL_TRANSP, _ => 0
        | _, some m => m i
        | _, none => 255
      blendPx (dest X Y) (colors i) cover opa
    else dest X Y

/-- Modelled from the spec: `lv_color_mix(c1, c2, ratio)` (color header,
outside src/) mixes `c1` into `c2` linearly by ratio/255. The equivalence
theorem never exercises it (recolor opacity is zero on both paths). -/
def lv_color_mix (c1 c2 ratio : Nat) : Nat :=
  (c1 * ratio + c2 * (255 - ratio)) / 255

/-- Overwrite `w` entries of a buffer starting at `start` with a row. -/
def spliceRow (buf : Nat → Nat) (start : Nat) (row : Nat → Nat) (w : Nat) : Nat → Nat :=
  fun i => if start ≤ i ∧ i < start + w then row (i - start) else buf i

/-- Modelled from the spec: the ambient rendering state consumed by
`lv_draw_map` — the refreshed display buffer area
(`lv_refr_get_disp_refreshing` / `lv_disp_get_buf`, outside src/), the number
of active external masks (`lv_draw_mask_get_cnt`), and the mask collaborator
(`lv_draw_mask_apply`), which attenuates a row's alpha buffer at its absolute
device coordinates and reports a verdict together with the attenuated row. -/
structure DrawCtx where
  disp_area : lv_area_t
  mask_cnt : Nat
  mask_apply : (Nat → Nat) → Int → Int → Int → lv_mask_res_t × (Nat → Nat)

/-- Loop state of the general (per-pixel) path of `lv_draw_map`: scratch color
row `map2` and alpha row `mask_buf`, pixel cursor `px_i`, current byte offset
into the map, pending blend block rows `b_y1..b_y2`, the last row's mask
verdict, and the destination produced so far. -/
structure GPState where
  map2 : Nat → Nat
  mask_buf : Nat → Nat
  px_i : Nat
  map_ofs : Int
  b_y1 : Int
  b_y2 : Int
  mres : lv_mask_res_t
  dest : DestBuf

/-- One iteration of the inner pixel loop of `lv_draw_map`'s general path:
record the pixel's coverage (trailing alpha byte, or full cover), skip
invisible pixels, decode the 16-bit color, apply chroma keying and
recoloring, and store into the scratch rows. -/
def gpPixel (map_p : Nat → Nat) (alpha_byte chroma_key : Bool)
    (recolor recolor_opa : Nat) (map_px : Int) (px_i : Nat)
    (map2 mask_buf : Nat → Nat) : (Nat → Nat) × (Nat → Nat) :=
  let px_opa := map_p (map_px.toNat + LV_IMG_PX_SIZE_ALPHA_BYTE - 1)
  let mask_buf1 :=
    if alpha_byte then updByte mask_buf px_i px_opa
    else updByte mask_buf px_i LV_OPA_COVER
  if alpha_byte ∧ px_opa < LV_OPA_MIN then
    (map2, mask_buf1)
  else
    let c := readColor16 map_p map_px.toNat
    if chroma_key ∧ c = LV_COLOR_TRANSP then
      (map2, updByte mask_buf1 px_i LV_OPA_TRANSP)
    else
      let c2 := if recolor_opa ≠ 0 then lv_color_mix recolor c recolor_opa else c
      (updByte map2 px_i c2, mask_buf1)

/-- The inner loop over one clipped row: `m` pixels remaining, the map byte
offset stepping by the per-pixel size and the cursor by one. -/
def gpRow (map_p : Nat → Nat) (alpha_byte chroma_key : Bool)
    (recolor recolor_opa : Nat) (px_size_byte : Nat) :
    Nat → Int → Nat → (Nat → Nat) × (Nat → Nat) → (Nat → Nat) × (Nat → Nat)
  | 0, _map_px, _px_i, st => st
  | m + 1, map_px, px_i, st =>
    let st1 := gpPixel map_p alpha_byte chroma_key recolor recolor_opa map_px px_i st.1 st.2
    gpRow map_p alpha_byte chroma_key recolor recolor_opa px_size_byte m
      (map_px + px_size_byte) (px_i + 1) st1

/-- The outer row loop of the general path: fill one row of the scratch
buffers, apply external masks when active, then either extend the pending
blend block or flush it through the blend primitive and start a new block.
`n` rows remain; `y` is the current row index relative to the draw area. -/
def gpOuter (ctx : DrawCtx) (clip_area : lv_area_t) (map_p : Nat → Nat)
    (alpha_byte chroma_key : Bool) (recolor recolor_opa : Nat)
    (px_size_byte : Nat) (draw_area : lv_area_t) (map_w : Int)
    (blend_x1 blend_x2 : Int) : Nat → Int → GPState → GPState
  | 0, _y, st => st
  | n + 1, y, st =>
    let dw := lv_area_get_width draw_area
    let filled := gpRow map_p alpha_byte chroma_key recolor recolor_opa px_size_byte
      dw.toNat st.map_ofs st.px_i (st.map2, st.mask_buf)
    let px_i1 := st.px_i + dw.toNat
    let mres1 : lv_mask_res_t :=
      if alpha_byte || chroma_key then .LV_MASK_RES_CHANGED else .LV_MASK_RES_FULL_COVER
    let masked : (Nat → Nat) × lv_mask_res_t :=
      if ctx.mask_cnt ≠ 0 then
        let row := fun i => filled.2 (st.px_i + i)
        let r := ctx.mask_apply row (draw_area.x1 + ctx.disp_area.x1)
          (y + draw_area.y1 + ctx.disp_area.y1) dw
        match r.1 with
        | .LV_MASK_RES_FULL_TRANSP =>
          (spliceRow filled.2 st.px_i (fun _ => 0) dw.toNat, .LV_MASK_RES_CHANGED)
        | .LV_MASK_RES_CHANGED =>
          (spliceRow filled.2 st.px_i r.2 dw.toNat, .LV_MASK_RES_CHANGED)
        | .LV_MASK_RES_FULL_COVER =>
          (spliceRow filled.2 st.px_i r.2 dw.toNat, mres1)
      else (filled.2, mres1)
    let map_ofs1 := st.map_ofs + map_w * px_size_byte
    if px_i1 + dw.toNat < LV_HOR_RES_MAX then
      gpOuter ctx clip_area map_p alpha_byte chroma_key recolor recolor_opa
        px_size_byte draw_area map_w blend_x1 blend_x2 n (y + 1)
        ⟨filled.1, masked.1, px_i1, map_ofs1, st.b_y1, st.b_y2 + 1, masked.2, st.dest⟩
    else
      let dest1 := lv_blend_map clip_area ⟨blend_x1, st.b_y1, blend_x2, st.b_y2⟩
        filled.1 (some masked.1) masked.2 LV_OPA_COVER st.dest
      gpOuter ctx clip_area map_p alpha_byte chroma_key recolor recolor_opa
        px_size_byte draw_area map_w blend_x1 blend_x2 n (y + 1)
        ⟨filled.1, (if ctx.mask_cnt ≠ 0 then (fun _ => 0xFF) else masked.1), 0,
          map_ofs1, st.b_y2 + 1, st.b_y2 + 1, masked.2, dest1⟩

/-- The general (per-pixel) branch of `lv_draw_map` on the clipped draw area
`draw_abs` (absolute device coordinates): make the draw area relative to the
display buffer, advance the map pointer to the first displayed pixel, run the
row loop, and flush the final partial block. -/
def drawMapGeneral (ctx : DrawCtx) (map_area clip_area : lv_area_t)
    (map_p : Nat → Nat) (chroma_key alpha_byte : Bool)
    (recolor recolor_opa : Nat) (draw_abs : lv_area_t) (dest : DestBuf) : DestBuf :=
  let px_size_byte : Nat := if alpha_byte then LV_IMG_PX_SIZE_ALPHA_BYTE else 2
  let disp := ctx.disp_area
  let draw_area : lv_area_t :=
    ⟨draw_abs.x1 - disp.x1, draw_abs.y1 - disp.y1, draw_abs.x2 - disp.x1, draw_abs.y2 - disp.y1⟩
  let map_w := lv_area_get_width map_area
  let map_ofs0 : Int := map_w * (draw_area.y1 - (map_area.y1 - disp.y1)) * px_size_byte
      + (draw_area.x1 - (map_area.x1 - disp.x1)) * px_size_byte
  let blend_x1 := draw_area.x1 + disp.x1
  let blend_x2 := blend_x1 + lv_area_get_width draw_area - 1
  let mask_buf0 : Nat → Nat := if ctx.mask_cnt ≠ 0 then (fun _ => 0xFF) else (fun _ => 0)
  let st0 : GPState := ⟨fun _ => 0, mask_buf0, 0, map_ofs0,
    disp.y1 + draw_area.y1, disp.y1 + draw_area.y1, .LV_MASK_RES_FULL_COVER, dest⟩
  let stF := gpOuter ctx clip_area map_p alpha_byte chroma_key recolor recolor_opa
    px_size_byte draw_area map_w blend_x1 blend_x2
    (lv_area_get_height draw_area).toNat 0 st0
  if stF.b_y1 ≠ stF.b_y2 then
    lv_blend_map clip_area ⟨blend_x1, stF.b_y1, blend_x2, stF.b_y2 - 1⟩ stF.map2
      (some stF.mask_buf) stF.mres LV_OPA_COVER stF.dest
  else stF.dest

/-- The compositor row-block routine `lv_draw_map`: early-out below the
minimum-visible opacity, clamp over-opaque opacity to full cover, clip the
map area to the draw region, then either the bulk fast path — one full-cover
blend of the whole map, reading the byte buffer as an array of 16-bit colors
— or the general per-pixel path. -/
def lv_draw_map (ctx : DrawCtx) (map_area clip_area : lv_area_t)
    (map_p : Nat → Nat) (opa0 : Nat) (chroma_key alpha_byte : Bool)
    (recolor recolor_opa : Nat) (dest : DestBuf) : DestBuf :=
  if opa0 < LV_OPA_MIN then dest
  else
    let opa := if opa0 > LV_OPA_MAX then LV_OPA_COVER else opa0
    match lv_area_intersect map_area clip_area with
    | none => dest
    | some draw_abs =>
      if drawMapFastCond ctx.mask_cnt chroma_key alpha_byte opa recolor_opa then
        lv_blend_map clip_area map_area (fun i => readColor16 map_p (2 * i)) none
          .LV_MASK_RES_FULL_COVER LV_OPA_COVER dest
      else
        drawMapGeneral ctx map_area clip_area map_p chroma_key alpha_byte
          recolor recolor_opa draw_abs dest

/-- The general per-pixel path run on the same inputs as `lv_draw_map` (the
same opacity prelude and clipping, but always taking the per-pixel branch). -/
def drawMapGeneralPath (ctx : DrawCtx) (map_area clip_area : lv_area_t)
    (map_p : Nat → Nat) (opa0 : Nat) (chroma_key alpha_byte : Bool)
    (recolor recolor_opa : Nat) (dest : DestBuf) : DestBuf :=
  if opa0 < LV_OPA_MIN then dest
  else
    let _opa := if opa0 > LV_OPA_MAX then LV_OPA_COVER else opa0
    match lv_area_intersect map_area clip_area with
    | none => dest
    | some draw_abs =>
      drawMapGeneral ctx map_area clip_area map_p chroma_key alpha_byte
        recolor recolor_opa draw_abs dest

/-- Color of the map at absolute device pixel (X, Y), as both paths read it. -/
def mapPixelColor (map_area : lv_area_t) (map_p : Nat → Nat) (X Y : Int) : Nat :=
  readColor16 map_p
    (2 * ((Y - map_area.y1) * lv_area_get_width map_area + (X - map_area.x1))).toNat

/-! Equivalence of the fast and general paths in the opaque, untinted,
unmasked, non-chroma-keyed scenario. -/

lemma gpPixel_simple (map_p : Nat → Nat) (recolor : Nat) (map_px : Int) (px_i : Nat)
    (map2 mask_buf : Nat → Nat) :
    gpPixel map_p false false recolor 0 map_px px_i map2 mask_buf
      = (updByte map2 px_i (readColor16 map_p map_px.toNat),
         updByte mask_buf px_i LV_OPA_COVER) := by
  simp [gpPixel]

/-- The scratch color row after filling `m` pixels in the scenario: indices
`px_i..px_i+m-1` hold the decoded colors, all others are untouched. -/
lemma gpRow_map2 (map_p : Nat → Nat) (recolor : Nat) :
    ∀ (m : Nat) (map_px : Int) (px_i : Nat) (map2 mask_buf : Nat → Nat) (i : Nat),
    (gpRow map_p false false recolor 0 2 m map_px px_i (map2, mask_buf)).1 i
      = if px_i ≤ i ∧ i < px_i + m
        then readColor16 map_p ((map_px + 2 * ((i - px_i : Nat) : Int)).toNat)
        else map2 i := by
  intro m
  induction m with
  | zero =>
    intro map_px px_i map2 mask_buf i
    simp only [gpRow]
    rw [if_neg (by omega)]
  | succ m ih =>
    intro map_px px_i map2 mask_buf i
    simp only [gpRow, gpPixel_simple]
    rw [ih]
    by_cases h1 : px_i + 1 ≤ i ∧ i < px_i + 1 + m
    · rw [if_pos h1, if_pos (by omega)]
      congr 2
      omega
    · rw [if_neg h1]
      by_cases h2 : i = px_i
      · subst h2
        rw [if_pos (by omega)]
        rw [updByte_same]
        congr 1
        omega
      · rw [updByte_other _ _ _ _ h2, if_neg (by omega)]

/-- A full-cover, fully opaque blend writes the block's colors to every pixel
of the clip-area intersection and leaves the rest of the destination. -/
lemma blend_full_cover (clip area : lv_area_t) (colors : Nat → Nat)
    (mask : Option (Nat → Nat)) (dest : DestBuf) (X Y : Int) :
    lv_blend_map clip area colors mask .LV_MASK_RES_FULL_COVER LV_OPA_COVER dest X Y
      = if clip.x1 ≤ X ∧ X ≤ clip.x2 ∧ clip.y1 ≤ Y ∧ Y ≤ clip.y2 ∧
           area.x1 ≤ X ∧ X ≤ area.x2 ∧ area.y1 ≤ Y ∧ Y ≤ area.y2
        then colors ((Y - area.y1) * lv_area_get_width area + (X - area.x1)).toNat
        else dest X Y := by
  unfold lv_blend_map blendPx
  cases mask <;> simp [LV_OPA_COVER]

/-- Characterization of a successful area intersection. -/
lemma intersect_some (a b r : lv_area_t) (h : lv_area_intersect a b = some r) :
    r.x1 = max a.x1 b.x1 ∧ r.y1 = max a.y1 b.y1 ∧ r.x2 = min a.x2 b.x2 ∧
    r.y2 = min a.y2 b.y2 ∧ r.x1 ≤ r.x2 ∧ r.y1 ≤ r.y2 := by
  unfold lv_area_intersect at h
  dsimp only at h
  split_ifs at h with hc
  cases h
  exact ⟨rfl, rfl, rfl, rfl, hc.1, hc.2⟩


/-- Loop invariant of the general path's row loop in the fast-path scenario,
after `j` rows with `p` of them pending in the scratch block. -/
def gpInv (map_area draw_abs : lv_area_t) (map_p : Nat → Nat) (dest0 : DestBuf)
    (j p : Nat) (st : GPState) : Prop :=
  p ≤ j
  ∧ st.px_i = p * (lv_area_get_width draw_abs).toNat
  ∧ st.b_y1 = draw_abs.y1 + (j : Int) - (p : Int)
  ∧ st.b_y2 = draw_abs.y1 + (j : Int)
  ∧ st.map_ofs = lv_area_get_width map_area * (draw_abs.y1 + (j : Int) - map_area.y1) * 2
      + (draw_abs.x1 - map_area.x1) * 2
  ∧ st.mres = .LV_MASK_RES_FULL_COVER
  ∧ (∀ t u : Nat, t < p → u < (lv_area_get_width draw_abs).toNat →
      st.map2 (t * (lv_area_get_width draw_abs).toNat + u)
        = mapPixelColor map_area map_p (draw_abs.x1 + (u : Int)) (st.b_y1 + (t : Int)))
  ∧ (∀ X Y : Int, st.dest X Y =
      if draw_abs.x1 ≤ X ∧ X ≤ draw_abs.x2 ∧ draw_abs.y1 ≤ Y ∧ Y < st.b_y1
      then mapPixelColor map_area map_p X Y else dest0 X Y)

/-- The row loop of the general path preserves `gpInv` in the scenario. -/
lemma gpOuter_inv (ctx : DrawCtx) (map_area clip_area draw_abs draw_area : lv_area_t)
    (map_p : Nat → Nat) (recolor : Nat) (dest0 : DestBuf)
    (map_w blend_x1 blend_x2 : Int)
    (hcnt : ctx.mask_cnt = 0)
    (_hsubm : map_area.x1 ≤ draw_abs.x1 ∧ draw_abs.x2 ≤ map_area.x2 ∧
             map_area.y1 ≤ draw_abs.y1 ∧ draw_abs.y2 ≤ map_area.y2)
    (hsubc : clip_area.x1 ≤ draw_abs.x1 ∧ draw_abs.x2 ≤ clip_area.x2 ∧
             clip_area.y1 ≤ draw_abs.y1 ∧ draw_abs.y2 ≤ clip_area.y2)
    (hne : draw_abs.x1 ≤ draw_abs.x2 ∧ draw_abs.y1 ≤ draw_abs.y2)
    (hda1 : draw_area.x1 = draw_abs.x1 - ctx.disp_area.x1)
    (hda2 : draw_area.y1 = draw_abs.y1 - ctx.disp_area.y1)
    (hda3 : draw_area.x2 = draw_abs.x2 - ctx.disp_area.x1)
    (hda4 : draw_area.y2 = draw_abs.y2 - ctx.disp_area.y1)
    (hmw : map_w = lv_area_get_width map_area)
    (hbx1 : blend_x1 = draw_abs.x1)
    (hbx2 : blend_x2 = draw_abs.x2) :
    ∀ (n j p : Nat) (y : Int) (st : GPState),
    (j : Int) + (n : Int) ≤ lv_area_get_height draw_abs →
    gpInv map_area draw_abs map_p dest0 j p st →
    ∃ p' : Nat, gpInv map_area draw_abs map_p dest0 (j + n) p'
      (gpOuter ctx clip_area map_p false false recolor 0 2 draw_area map_w
        blend_x1 blend_x2 n y st) := by
  have hdw : lv_area_get_width draw_area = lv_area_get_width draw_abs := by
    unfold lv_area_get_width
    omega
  have hdwpos : 1 ≤ lv_area_get_width draw_abs := by
    unfold lv_area_get_width
    omega
  have hcast : (((lv_area_get_width draw_abs).toNat : Int)) = lv_area_get_width draw_abs := by
    omega
  have hwidth : lv_area_get_width draw_abs = draw_abs.x2 - draw_abs.x1 + 1 := rfl
  have hheight : lv_area_get_height draw_abs = draw_abs.y2 - draw_abs.y1 + 1 := rfl
  intro n
  induction n with
  | zero =>
    intro j p y st _hb hinv
    exact ⟨p, by simpa [gpOuter] using hinv⟩
  | succ m ih =>
    intro j p y st hb hinv
    obtain ⟨hp, hpx, hby1, hby2, hofs, hmres, hmap2, hdest⟩ := hinv
    simp only [gpOuter, hcnt, hdw, ne_eq, not_true_eq_false, if_false, Bool.or_self,
      Bool.false_or, ite_false, Bool.false_eq_true]
    have hjm : j + (m + 1) = (j + 1) + m := by omega
    rw [hjm]
    have hb' : ((j + 1 : Nat) : Int) + (m : Int) ≤ lv_area_get_height draw_abs := by
      push_cast at hb ⊢
      omega
    have hfill := gpRow_map2 map_p recolor (lv_area_get_width draw_abs).toNat
      st.map_ofs st.px_i st.map2 st.mask_buf
    by_cases hcond :
        st.px_i + (lv_area_get_width draw_abs).toNat + (lv_area_get_width draw_abs).toNat
          < LV_HOR_RES_MAX
    · rw [if_pos hcond]
      apply ih (j + 1) (p + 1) (y + 1)
      · exact hb'
      · unfold gpInv
        dsimp only
        refine ⟨by omega, by rw [hpx]; ring, ?_, ?_, ?_, rfl, ?_, ?_⟩
        · rw [hby1]
          push_cast
          ring
        · rw [hby2]
          push_cast
          ring
        · rw [hofs, hmw]
          push_cast
          ring
        · intro t u ht hu
          rcases Nat.lt_succ_iff_lt_or_eq.mp ht with htp | htp
          · have hlt : t * (lv_area_get_width draw_abs).toNat + u
                < p * (lv_area_get_width draw_abs).toNat := by
              calc t * (lv_area_get_width draw_abs).toNat + u
                  < t * (lv_area_get_width draw_abs).toNat
                      + (lv_area_get_width draw_abs).toNat := by omega
                _ = (t + 1) * (lv_area_get_width draw_abs).toNat := by ring
                _ ≤ p * (lv_area_get_width draw_abs).toNat :=
                    Nat.mul_le_mul (by omega) (Nat.le_refl _)
            rw [hfill, if_neg (by rw [hpx]; omega)]
            exact hmap2 t u htp hu
          · subst htp
            rw [hfill, if_pos (by rw [hpx]; omega)]
            unfold mapPixelColor readColor16
            have harg : st.map_ofs + 2 * ((t * (lv_area_get_width draw_abs).toNat + u
                - st.px_i : Nat) : Int)
                = 2 * ((st.b_y1 + (t : Int) - map_area.y1) * lv_area_get_width map_area
                    + (draw_abs.x1 + (u : Int) - map_area.x1)) := by
              have hsub : ((t * (lv_area_get_width draw_abs).toNat + u
                  - st.px_i : Nat) : Int) = (u : Int) := by
                rw [hpx]
                omega
              rw [hsub, hofs, hby1]
              ring
            rw [harg]
        · intro X Y
          exact hdest X Y
    · rw [if_neg hcond]
      apply ih (j + 1) 0 (y + 1)
      · exact hb'
      · unfold gpInv
        dsimp only
        refine ⟨by omega, by simp, ?_, ?_, ?_, rfl, ?_, ?_⟩
        · rw [hby2]
          push_cast
          ring
        · rw [hby2]
          push_cast
          ring
        · rw [hofs, hmw]
          push_cast
          ring
        · intro t u ht _hu
          exact absurd ht (by omega)
        · intro X Y
          rw [blend_full_cover]
          dsimp only
          have hwb : lv_area_get_width ⟨blend_x1, st.b_y1, blend_x2, st.b_y2⟩
              = lv_area_get_width draw_abs := by
            unfold lv_area_get_width
            dsimp only
            omega
          by_cases hin : blend_x1 ≤ X ∧ X ≤ blend_x2 ∧ st.b_y1 ≤ Y ∧ Y ≤ st.b_y2
          · have hclip : clip_area.x1 ≤ X ∧ X ≤ clip_area.x2 ∧ clip_area.y1 ≤ Y ∧
                Y ≤ clip_area.y2 := ⟨by omega, by omega, by omega, by omega⟩
            rw [if_pos ⟨hclip.1, hclip.2.1, hclip.2.2.1, hclip.2.2.2, hin.1, hin.2.1,
              hin.2.2.1, hin.2.2.2⟩]
            rw [hwb]
            obtain ⟨t, ht⟩ : ∃ t : Nat, (t : Int) = Y - st.b_y1 :=
              ⟨(Y - st.b_y1).toNat, by omega⟩
            obtain ⟨u, hu⟩ : ∃ u : Nat, (u : Int) = X - blend_x1 :=
              ⟨(X - blend_x1).toNat, by omega⟩
            have htp : t ≤ p := by omega
            have hudw : u < (lv_area_get_width draw_abs).toNat := by omega
            have hidx : ((Y - st.b_y1) * lv_area_get_width draw_abs + (X - blend_x1)).toNat
                = t * (lv_area_get_width draw_abs).toNat + u := by
              rw [← ht, ← hu, ← hcast]
              rw [show (t : Int) * (((lv_area_get_width draw_abs).toNat : Nat) : Int)
                    + (u : Int)
                  = ((t * (lv_area_get_width draw_abs).toNat + u : Nat) : Int) by
                push_cast; ring]
              exact Int.toNat_natCast _
            rw [hidx]
            rcases Nat.lt_or_ge t p with htp2 | htp2
            · have hlt : t * (lv_area_get_width draw_abs).toNat + u
                  < p * (lv_area_get_width draw_abs).toNat := by
                calc t * (lv_area_get_width draw_abs).toNat + u
                    < t * (lv_area_get_width draw_abs).toNat
                        + (lv_area_get_width draw_abs).toNat := by omega
                  _ = (t + 1) * (lv_area_get_width draw_abs).toNat := by ring
                  _ ≤ p * (lv_area_get_width draw_abs).toNat :=
                      Nat.mul_le_mul (by omega) (Nat.le_refl _)
              rw [hfill, if_neg (by rw [hpx]; omega)]
              rw [hmap2 t u htp2 hudw]
              have hX : draw_abs.x1 + (u : Int) = X := by omega
              have hY : st.b_y1 + (t : Int) = Y := by omega
              rw [hX, hY, if_pos ⟨by omega, by omega, by omega, by omega⟩]
            · have htp3 : t = p := by omega
              subst htp3
              rw [hfill, if_pos (by rw [hpx]; omega)]
              rw [if_pos ⟨by omega, by omega, by omega, by omega⟩]
              unfold mapPixelColor readColor16
              have harg : st.map_ofs
                    + 2 * ((t * (lv_area_get_width draw_abs).toNat + u - st.px_i : Nat) : Int)
                  = 2 * ((Y - map_area.y1) * lv_area_get_width map_area
                      + (X - map_area.x1)) := by
                have hsub : ((t * (lv_area_get_width draw_abs).toNat + u
                    - st.px_i : Nat) : Int) = (u : Int) := by
                  rw [hpx]
                  omega
                have hYj : Y = draw_abs.y1 + (j : Int) := by omega
                have hXu : X = draw_abs.x1 + (u : Int) := by omega
                rw [hsub, hofs, hYj, hXu]
                ring
              rw [harg]
          · rw [if_neg (by
              intro hcontra
              exact hin ⟨hcontra.2.2.2.2.1, hcontra.2.2.2.2.2.1,
                hcontra.2.2.2.2.2.2.1, hcontra.2.2.2.2.2.2.2⟩)]
            rw [hdest X Y]
            by_cases hold : draw_abs.x1 ≤ X ∧ X ≤ draw_abs.x2 ∧ draw_abs.y1 ≤ Y ∧ Y < st.b_y1
            · rw [if_pos hold, if_pos ⟨by omega, by omega, by omega, by omega⟩]
            · rw [if_neg hold, if_neg (by
                intro hcontra
                exact hold ⟨by omega, by omega, by omega, by omega⟩)]

lemma fast_blend_spec (map_area clip_area draw_abs : lv_area_t) (map_p : Nat → Nat)
    (dest : DestBuf)
    (hint : lv_area_intersect map_area clip_area = some draw_abs) :
    lv_blend_map clip_area map_area (fun i => readColor16 map_p (2 * i)) none
        .LV_MASK_RES_FULL_COVER LV_OPA_COVER dest
      = fun X Y => if draw_abs.x1 ≤ X ∧ X ≤ draw_abs.x2 ∧ draw_abs.y1 ≤ Y ∧ Y ≤ draw_abs.y2
          then mapPixelColor map_area map_p X Y else dest X Y := by
  obtain ⟨h1, h2, h3, h4, h5, h6⟩ := intersect_some _ _ _ hint
  have hw : lv_area_get_width map_area = map_area.x2 - map_area.x1 + 1 := rfl
  funext X Y
  rw [blend_full_cover]
  by_cases hc : draw_abs.x1 ≤ X ∧ X ≤ draw_abs.x2 ∧ draw_abs.y1 ≤ Y ∧ Y ≤ draw_abs.y2
  · rw [if_pos ⟨by omega, by omega, by omega, by omega, by omega, by omega, by omega,
      by omega⟩]
    rw [if_pos hc]
    unfold mapPixelColor
    congr 1
    have hnn : 0 ≤ (Y - map_area.y1) * lv_area_get_width map_area :=
      mul_nonneg (by omega) (by omega)
    omega
  · rw [if_neg (by
      intro hcontra
      exact hc ⟨by omega, by omega, by omega, by omega⟩)]
    rw [if_neg hc]

lemma drawMapGeneral_spec (ctx : DrawCtx) (map_area clip_area draw_abs : lv_area_t)
    (map_p : Nat → Nat) (recolor : Nat) (dest : DestBuf)
    (hcnt : ctx.mask_cnt = 0)
    (hint : lv_area_intersect map_area clip_area = some draw_abs) :
    drawMapGeneral ctx map_area clip_area map_p false false recolor 0 draw_abs dest
      = fun X Y => if draw_abs.x1 ≤ X ∧ X ≤ draw_abs.x2 ∧ draw_abs.y1 ≤ Y ∧ Y ≤ draw_abs.y2
          then mapPixelColor map_area map_p X Y else dest X Y := by
  obtain ⟨hi1, hi2, hi3, hi4, hi5, hi6⟩ := intersect_some _ _ _ hint
  have hw : lv_area_get_width draw_abs = draw_abs.x2 - draw_abs.x1 + 1 := rfl
  have hh : lv_area_get_height draw_abs = draw_abs.y2 - draw_abs.y1 + 1 := rfl
  have hwm : lv_area_get_width map_area = map_area.x2 - map_area.x1 + 1 := rfl
  have hwl : lv_area_get_width
      ⟨draw_abs.x1 - ctx.disp_area.x1, draw_abs.y1 - ctx.disp_area.y1,
       draw_abs.x2 - ctx.disp_area.x1, draw_abs.y2 - ctx.disp_area.y1⟩
      = lv_area_get_width draw_abs := by
    unfold lv_area_get_width
    dsimp only
    omega
  have hhl : lv_area_get_height
      ⟨draw_abs.x1 - ctx.disp_area.x1, draw_abs.y1 - ctx.disp_area.y1,
       draw_abs.x2 - ctx.disp_area.x1, draw_abs.y2 - ctx.disp_area.y1⟩
      = lv_area_get_height draw_abs := by
    unfold lv_area_get_height
    dsimp only
    omega
  unfold drawMapGeneral
  simp only [hcnt, ne_eq, not_true_eq_false, if_false, Bool.false_eq_true, ite_false]
  obtain ⟨p', hinv⟩ := gpOuter_inv ctx map_area clip_area draw_abs
      ⟨draw_abs.x1 - ctx.disp_area.x1, draw_abs.y1 - ctx.disp_area.y1,
       draw_abs.x2 - ctx.disp_area.x1, draw_abs.y2 - ctx.disp_area.y1⟩
      map_p recolor dest (lv_area_get_width map_area)
      (draw_abs.x1 - ctx.disp_area.x1 + ctx.disp_area.x1)
      (draw_abs.x1 - ctx.disp_area.x1 + ctx.disp_area.x1 +
        lv_area_get_width
          ⟨draw_abs.x1 - ctx.disp_area.x1, draw_abs.y1 - ctx.disp_area.y1,
           draw_abs.x2 - ctx.disp_area.x1, draw_abs.y2 - ctx.disp_area.y1⟩ - 1)
      hcnt ⟨by omega, by omega, by omega, by omega⟩
      ⟨by omega, by omega, by omega, by omega⟩ ⟨hi5, hi6⟩
      rfl rfl rfl rfl rfl (by omega) (by rw [hwl]; omega)
      (lv_area_get_height
        ⟨draw_abs.x1 - ctx.disp_area.x1, draw_abs.y1 - ctx.disp_area.y1,
         draw_abs.x2 - ctx.disp_area.x1, draw_abs.y2 - ctx.disp_area.y1⟩).toNat
      0 0 0
      ⟨fun _ => 0, fun _ => 0, 0,
        lv_area_get_width map_area *
            (draw_abs.y1 - ctx.disp_area.y1 - (map_area.y1 - ctx.disp_area.y1)) * (2 : Nat)
          + (draw_abs.x1 - ctx.disp_area.x1 - (map_area.x1 - ctx.disp_area.x1)) * (2 : Nat),
        ctx.disp_area.y1 + (draw_abs.y1 - ctx.disp_area.y1),
        ctx.disp_area.y1 + (draw_abs.y1 - ctx.disp_area.y1),
        .LV_MASK_RES_FULL_COVER, dest⟩
      (by rw [hhl]; omega)
      (by
        unfold gpInv
        dsimp only
        refine ⟨by omega, by omega, by omega, by omega, ?_, rfl, ?_, ?_⟩
        · push_cast
          ring
        · intro t u ht _hu
          exact absurd ht (by omega)
        · intro X Y
          rw [if_neg (by omega)])
  obtain ⟨hp', hpx', hby1', hby2', hofs', hmres', hmap2', hdest'⟩ := hinv
  set H : Nat := (lv_area_get_height
      ⟨draw_abs.x1 - ctx.disp_area.x1, draw_abs.y1 - ctx.disp_area.y1,
       draw_abs.x2 - ctx.disp_area.x1, draw_abs.y2 - ctx.disp_area.y1⟩).toNat with hHdef
  have hnI : ((H : Int)) = draw_abs.y2 - draw_abs.y1 + 1 := by
    rw [hHdef, hhl]
    omega
  have hcastd : (((lv_area_get_width draw_abs).toNat : Int)) = lv_area_get_width draw_abs := by
    omega
  rw [hby1', hby2']
  by_cases hp0 : p' = 0
  · subst hp0
    rw [if_neg (by push_cast; omega)]
    funext X Y
    rw [hdest' X Y, hby1']
    by_cases hc : draw_abs.x1 ≤ X ∧ X ≤ draw_abs.x2 ∧ draw_abs.y1 ≤ Y ∧ Y ≤ draw_abs.y2
    · rw [if_pos (by push_cast; omega), if_pos hc]
    · rw [if_neg (by push_cast; omega), if_neg hc]
  · rw [if_pos (by push_cast; omega)]
    rw [hmres']
    rw [hby1'] at hmap2' hdest'
    funext X Y
    rw [blend_full_cover]
    dsimp only
    have hwb : lv_area_get_width
        ⟨draw_abs.x1 - ctx.disp_area.x1 + ctx.disp_area.x1,
         draw_abs.y1 + ((0 + H : Nat) : Int) - (p' : Int),
         draw_abs.x1 - ctx.disp_area.x1 + ctx.disp_area.x1 +
           lv_area_get_width
             ⟨draw_abs.x1 - ctx.disp_area.x1, draw_abs.y1 - ctx.disp_area.y1,
              draw_abs.x2 - ctx.disp_area.x1, draw_abs.y2 - ctx.disp_area.y1⟩ - 1,
         draw_abs.y1 + ((0 + H : Nat) : Int) - 1⟩
        = lv_area_get_width draw_abs := by
      unfold lv_area_get_width
      dsimp only
      omega
    by_cases hc : draw_abs.x1 ≤ X ∧ X ≤ draw_abs.x2 ∧ draw_abs.y1 ≤ Y ∧ Y ≤ draw_abs.y2
    · by_cases hrow : draw_abs.y1 + ((0 + H : Nat) : Int) - (p' : Int) ≤ Y
      · -- pending rows: written by the final blend
        rw [if_pos (by
          refine ⟨?_, ?_, ?_, ?_, ?_, ?_, ?_, ?_⟩ <;> push_cast <;> omega)]
        rw [hwb]
        obtain ⟨t, ht⟩ : ∃ t : Nat,
            (t : Int) = Y - (draw_abs.y1 + ((0 + H : Nat) : Int) - (p' : Int)) :=
          ⟨(Y - (draw_abs.y1 + ((0 + H : Nat) : Int) - (p' : Int))).toNat, by omega⟩
        obtain ⟨u, hu⟩ : ∃ u : Nat,
            (u : Int) = X - (draw_abs.x1 - ctx.disp_area.x1 + ctx.disp_area.x1) :=
          ⟨(X - (draw_abs.x1 - ctx.disp_area.x1 + ctx.disp_area.x1)).toNat, by omega⟩
        have htp : t < p' := by push_cast at ht; omega
        have hudw : u < (lv_area_get_width draw_abs).toNat := by omega
        have hidx : ((Y - (draw_abs.y1 + ((0 + H : Nat) : Int) - (p' : Int)))
              * lv_area_get_width draw_abs
            + (X - (draw_abs.x1 - ctx.disp_area.x1 + ctx.disp_area.x1))).toNat
            = t * (lv_area_get_width draw_abs).toNat + u := by
          rw [← ht, ← hu, ← hcastd]
          rw [show (t : Int) * (((lv_area_get_width draw_abs).toNat : Nat) : Int) + (u : Int)
              = ((t * (lv_area_get_width draw_abs).toNat + u : Nat) : Int) by push_cast; ring]
          exact Int.toNat_natCast _
        rw [hidx, hmap2' t u htp hudw]
        have hX : draw_abs.x1 + (u : Int) = X := by omega
        have hY : draw_abs.y1 + ((0 + H : Nat) : Int) - (p' : Int) + (t : Int) = Y := by omega
        rw [hX, hY, if_pos hc]
      · -- committed rows: already in the destination
        rw [if_neg (by
          intro hcontra
          exact hrow hcontra.2.2.2.2.2.2.1)]
        rw [hdest' X Y, if_pos (by push_cast; push_cast at hrow; omega), if_pos hc]
    · rw [if_neg (by
        intro hcontra
        refine hc ⟨by omega, ?_, by omega, ?_⟩
        · have h6 := hcontra.2.2.2.2.2.1
          omega
        · have h8 := hcontra.2.2.2.2.2.2.2
          push_cast at h8
          omega)]
      rw [hdest' X Y, if_neg (by
        intro hcontra
        exact hc ⟨by omega, by omega, by omega, by push_cast at hcontra; omega⟩)]
      rw [if_neg hc]

/-- C2: with zero active external masks, chroma keying off, no alpha byte,
fully opaque opacity and zero recolor opacity, `lv_draw_map` takes the
bulk-copy fast path, and the destination contents it produces are identical
to what the general per-pixel path produces on the same inputs. -/
theorem C2_fast_path_equals_general (ctx : DrawCtx) (map_area clip_area : lv_area_t)
    (map_p : Nat → Nat) (recolor : Nat) (dest : DestBuf)
    (hcnt : ctx.mask_cnt = 0) :
    drawMapFastCond ctx.mask_cnt false false LV_OPA_COVER 0 = true
    ∧ lv_draw_map ctx map_area clip_area map_p 255 false false recolor 0 dest
      = drawMapGeneralPath ctx map_area clip_area map_p 255 false false recolor 0 dest := by
  refine ⟨by simp [drawMapFastCond, hcnt, LV_OPA_COVER, LV_OPA_TRANSP], ?_⟩
  unfold lv_draw_map drawMapGeneralPath
  have h1 : ¬(255 < LV_OPA_MIN) := by norm_num [LV_OPA_MIN]
  rw [if_neg h1, if_neg h1]
  cases hint : lv_area_intersect map_area clip_area with
  | none => rfl
  | some draw_abs =>
    dsimp only
    rw [if_pos (by simp [drawMapFastCond, hcnt, LV_OPA_MAX, LV_OPA_COVER, LV_OPA_TRANSP])]
    rw [fast_blend_spec map_area clip_area draw_abs map_p dest hint]
    rw [drawMapGeneral_spec ctx map_area clip_area draw_abs map_p recolor dest hcnt hint]

/-- Witness for C2 on a concrete context with no active masks. -/
theorem C2_fast_path_equals_general_witness :
    (DrawCtx.mk ⟨0, 0, 299, 99⟩ 0
        (fun row _ _ _ => (.LV_MASK_RES_FULL_COVER, row))).mask_cnt = 0
    ∧ lv_draw_map
        ⟨⟨0, 0, 299, 99⟩, 0, fun row _ _ _ => (.LV_MASK_RES_FULL_COVER, row)⟩
        ⟨2, 3, 5, 6⟩ ⟨0, 0, 4, 5⟩ (fun i => (i * 7 + 3) % 256) 255 false false 0 0
        (fun _ _ => 999)
      = drawMapGeneralPath
        ⟨⟨0, 0, 299, 99⟩, 0, fun row _ _ _ => (.LV_MASK_RES_FULL_COVER, row)⟩
        ⟨2, 3, 5, 6⟩ ⟨0, 0, 4, 5⟩ (fun i => (i * 7 + 3) % 256) 255 false false 0 0
        (fun _ _ => 999) :=
  ⟨rfl,
   (C2_fast_path_equals_general
      ⟨⟨0, 0, 299, 99⟩, 0, fun row _ _ _ => (.LV_MASK_RES_FULL_COVER, row)⟩
      ⟨2, 3, 5, 6⟩ ⟨0, 0, 4, 5⟩ (fun i => (i * 7 + 3) % 256) 0 (fun _ _ => 999) rfl).2⟩

end LvImg
